import Mathlib

/-!
# Setup server of the wiki (`server/setup.js`)

A shallow embedding of the setup listener: the `POST /finalize` handler, the
connection registry with `WIKI.server.destroy`, and the listener's `error`
handler.  The handler is a straight line of awaited calls inside one
`try`/`catch`; it is embedded as the list of its statements, run in order
over an explicit world until one of them throws.

Collaborators that live outside `server/setup.js` (the file system helpers,
`crypto`, the configuration service, the plugin registries) appear only as
events of the trace; whether a call throws, and what it returns, is read
from an environment.  A call that throws is still recorded: the trace holds
the calls made, not only those that returned.  The record models the seed
records are written through are modelled as plain tables.

The helpers `cfgHelper.parseConfigValue`, `path.join(process.cwd(), 'data')`,
`pem2jwk` and `uuid` return what the environment says, or throw when it says
so; they leave no event.  The logger, the telemetry event, `_.set`,
`res.json`, `res.end` and `WIKI.server.destroy` are taken not to throw.
-/

namespace Setup

/-! ## Values -/

/-- JavaScript values as far as the handler handles them (numbers are the
integers). -/
inductive JsVal where
  | undefined
  | null
  | bool (b : Bool)
  | num (n : Int)
  | str (s : String)
  | arr (items : List JsVal)
  | obj (fields : List (String × JsVal))

/-- Truthiness, as tested by `if (req.body.upgrade)`. -/
def JsVal.truthy : JsVal → Bool
  | .undefined => false
  | .null => false
  | .bool b => b
  | .num n => n != 0
  | .str s => s != ""
  | .arr _ => true
  | .obj _ => true

/-- The comparison `v === true`. -/
def JsVal.isTrue : JsVal → Bool
  | .bool b => b
  | _ => false

/-- The body of a finalize request (`req.body`). -/
structure Body where
  adminEmail : String
  adminPassword : String
  telemetry : JsVal
  upgrade : JsVal
  upgMongo : JsVal

/-! ## Connections and the registry -/

/-- A socket accepted by the listener; `id` is the identity of the object. -/
structure Conn where
  id : Nat
  remoteAddress : String
  remotePort : Nat
  deriving DecidableEq

/-- The registry key: `conn.remoteAddress + ':' + conn.remotePort`. -/
def registryKey (remoteAddress : String) (remotePort : Nat) : String :=
  remoteAddress ++ ":" ++ toString remotePort

/-- The key of a connection, computed once in the `connection` handler. -/
def connKey (conn : Conn) : String :=
  registryKey conn.remoteAddress conn.remotePort

/-- The object `openConnections`: string keys in insertion order, which is
the order `for (let key in openConnections)` visits them in. -/
abbrev Registry := List (String × Conn)

/-- The assignment `openConnections[key] = conn`: an existing key keeps its
place and takes the new value, a new key goes last. -/
def Registry.assign : Registry → String → Conn → Registry
  | [], key, conn => [(key, conn)]
  | (k, c) :: rest, key, conn =>
    if k = key then (key, conn) :: rest else (k, c) :: Registry.assign rest key conn

/-- The statement `delete openConnections[key]`. -/
def Registry.delete (reg : Registry) (key : String) : Registry :=
  reg.filter (fun e => e.1 ≠ key)

/-- The read `openConnections[key]`. -/
def Registry.get (reg : Registry) (key : String) : Option Conn :=
  (reg.find? (fun e => e.1 = key)).map Prod.snd

/-! ## Records -/

/-- A page rule of a group, as passed to `JSON.stringify`. -/
structure PageRule where
  id : String
  roles : List String
  matchKind : String
  deny : Bool
  path : String
  locales : List String
  deriving DecidableEq

/-- The object given to `WIKI.models.locales.query().insert`. -/
structure LocaleRow where
  code : String
  strings : List (String × String)
  isRTL : Bool
  name : String
  nativeName : String
  deriving DecidableEq

/-- The object given to `WIKI.models.groups.query().insert`; `permissions`
and `pageRules` hold the arrays that the source passes to `JSON.stringify`. -/
structure GroupInsert where
  name : String
  permissions : List String
  pageRules : List PageRule
  isSystem : Bool
  deriving DecidableEq

/-- A stored group: the inserted object with the id the store gave it. -/
structure GroupRow where
  id : Nat
  fields : GroupInsert
  deriving DecidableEq

/-- The object given to `WIKI.models.users.query().insert`; the
administrator's object has no `isSystem`. -/
structure UserInsert where
  email : String
  provider : String
  password : String
  name : String
  locale : String
  defaultEditor : String
  tfaIsActive : Bool
  isSystem : Option Bool
  isActive : Bool
  isVerified : Bool
  deriving DecidableEq

/-- A stored user: the inserted object with the id the store gave it. -/
structure UserRow where
  id : Nat
  fields : UserInsert
  deriving DecidableEq

/-- The filter of `WIKI.models.users.query().delete().where({...})`. -/
structure UserWhere where
  providerKey : String
  email : String
  deriving DecidableEq

/-- One entry of the navigation `config` array. -/
structure NavItem where
  id : String
  icon : String
  kind : String
  label : String
  target : String
  targetType : String
  deriving DecidableEq

/-- The object given to `WIKI.models.navigation.query().insert`. -/
structure NavRow where
  key : String
  config : List NavItem
  deriving DecidableEq

/-- The tables the seed records are written to. -/
structure Store where
  locales : List LocaleRow
  groups : List GroupRow
  users : List UserRow
  userGroups : List (Nat × Nat)
  navigation : List NavRow
  nextGroupId : Nat
  nextUserId : Nat
  deriving DecidableEq

/-- Modelled from the spec: the users model `WIKI.models.users`, which is not
in `server/setup.js`.  The spec's natural key of an account is the pair
(provider, email): the filter's `providerKey` is compared with the `provider`
the record was inserted with, and `email` with its `email`. -/
def UserWhere.selects (filter : UserWhere) (row : UserRow) : Bool :=
  row.fields.provider = filter.providerKey && row.fields.email = filter.email

/-- Modelled from the spec: `query().insert` of the locales model appends the
record. -/
def Store.insertLocale (db : Store) (row : LocaleRow) : Store :=
  { db with locales := db.locales ++ [row] }

/-- Modelled from the spec: `query().insert` of the groups model appends the
record under a fresh id and returns it. -/
def Store.insertGroup (db : Store) (fields : GroupInsert) : GroupRow × Store :=
  (⟨db.nextGroupId, fields⟩,
   { db with groups := db.groups ++ [⟨db.nextGroupId, fields⟩], nextGroupId := db.nextGroupId + 1 })

/-- Modelled from the spec: `query().delete().where(filter)` of the users
model removes every account colliding on the natural key. -/
def Store.deleteUsers (db : Store) (filter : UserWhere) : Store :=
  { db with users := db.users.filter (fun row => !filter.selects row) }

/-- Modelled from the spec: `query().insert` of the users model appends the
record under a fresh id and returns it. -/
def Store.insertUser (db : Store) (fields : UserInsert) : UserRow × Store :=
  (⟨db.nextUserId, fields⟩,
   { db with users := db.users ++ [⟨db.nextUserId, fields⟩], nextUserId := db.nextUserId + 1 })

/-- Modelled from the spec: `user.$relatedQuery('groups').relate(groupId)`
links the account to the group. -/
def Store.relate (db : Store) (userId groupId : Nat) : Store :=
  { db with userGroups := db.userGroups ++ [(userId, groupId)] }

/-- Modelled from the spec: `query().delete().where({ key })` of the
navigation model. -/
def Store.deleteNavigation (db : Store) (key : String) : Store :=
  { db with navigation := db.navigation.filter (fun row => row.key ≠ key) }

/-- Modelled from the spec: `query().insert` of the navigation model. -/
def Store.insertNavigation (db : Store) (row : NavRow) : Store :=
  { db with navigation := db.navigation ++ [row] }

/-! ## Configuration -/

/-- The object `WIKI.config`: its keys with their values. -/
abbrev Config := List (String × JsVal)

/-- The read `WIKI.config[key]`; a missing key reads as `undefined`. -/
def Config.get : Config → String → JsVal
  | [], _ => .undefined
  | (k, v) :: rest, key => if k = key then v else Config.get rest key

/-- The assignment `WIKI.config[key] = value`, also done by
`_.set(WIKI.config, key, value)`. -/
def Config.set : Config → String → JsVal → Config
  | [], key, value => [(key, value)]
  | (k, v) :: rest, key, value =>
    if k = key then (key, value) :: rest else (k, v) :: Config.set rest key value

/-! ## Events, environment and world -/

/-- The functions the handler passes on as callbacks. -/
inductive Callback where
  /-- The arrow function given to `WIKI.server.destroy` by the handler. -/
  | stopCompletion
  /-- Any other function a caller of `WIKI.server.destroy` passes. -/
  | other (tag : Nat)
  deriving DecidableEq

/-- The functions given to `_.delay`. -/
inductive TimerAction where
  /-- The arrow function calling `WIKI.kernel.bootMaster()`. -/
  | bootMaster
  deriving DecidableEq

/-- The calls the setup server makes, in the order of the trace. -/
inductive Event where
  | telemetrySendEvent (category action : String)
  | loggerInfo (message : String)
  | upgradeFromMongo (options : JsVal)
  | ensureDir (path : List String)
  | emptyDir (path : List String)
  | configSet (key : String) (value : JsVal)
  | randomBytesAsync (size : Nat)
  | generateKeyPairSync (kind : String) (modulusLength : Nat) (cipher : String) (passphrase : JsVal)
  | saveToDb (sections : List (String × JsVal))
  | localesInsert (row : LocaleRow)
  | groupsInsert (fields : GroupInsert)
  | refreshStrategiesFromDisk
  | authenticationPatch (isEnabled : Bool) (key : String)
  | refreshEditorsFromDisk
  | editorsPatch (isEnabled : Bool) (key : String)
  | refreshLoggersFromDisk
  | refreshRenderersFromDisk
  | refreshSearchEnginesFromDisk
  | searchEnginesPatch (isEnabled : Bool) (key : String)
  | refreshTargetsFromDisk
  | usersDelete (filter : UserWhere)
  | usersInsert (fields : UserInsert)
  | relateGroups (userId groupId : Nat)
  | navigationDelete (key : String)
  | navigationInsert (row : NavRow)
  | resJson (body : JsVal)
  | resEnd
  | serverClose (cb : Callback)
  | connDestroy (conn : Conn)
  | delay (action : TimerAction) (wait : Nat)
  | kernelBootMaster

/-- The awaited or synchronous calls of the handler that can throw, one per
call in the source, in source order; among them the helpers
`cfgHelper.parseConfigValue`, `path.join(process.cwd(), 'data')`, `pem2jwk`
and `uuid`, whose results are part of a later call. -/
inductive Site where
  | parseConfigValue
  | upgradeFromMongo
  | dataPath
  | ensureDataDir
  | emptyCacheDir
  | ensureUploadsDir
  | randomBytes
  | generateKeyPair
  | pem2jwk
  | saveToDb
  | insertLocale
  | insertAdminGroup
  | insertGuestGroup
  | refreshStrategies
  | enableLocal
  | refreshEditors
  | enableMarkdown
  | refreshLoggers
  | refreshRenderers
  | refreshSearchEngines
  | enableDb
  | refreshTargets
  | deleteAdminUser
  | insertAdminUser
  | relateAdminUser
  | deleteGuestUser
  | insertGuestUser
  | relateGuestUser
  | deleteNavigation
  | uuid
  | insertNavigation
  deriving DecidableEq

/-- What the handler reads from outside itself. -/
structure Env where
  /-- The value of `semver.satisfies(process.version, '>=10.14')`. -/
  versionSatisfies : Bool
  /-- The segments of `process.cwd()`. -/
  cwd : List String
  /-- The message of the error a call throws, if it throws. -/
  throws : Site → Option String
  /-- The helper `cfgHelper.parseConfigValue`. -/
  parseConfigValue : JsVal → JsVal
  /-- The bytes `crypto.randomBytesAsync(size)` resolves to. -/
  randomBytes : Nat → List Nat
  /-- The PEM pair `(publicKey, privateKey)` that `crypto.generateKeyPairSync`
  returns for a passphrase. -/
  generateKeyPair : JsVal → String × String
  /-- The conversion `pem2jwk`. -/
  pem2jwk : String → JsVal
  /-- The value `WIKI.telemetry.cid`. -/
  telemetryCid : JsVal
  /-- The value `uuid()` returns. -/
  uuid : String

/-- The `const` bindings of the handler that later statements read. -/
structure Locals where
  certs : Option (String × String)
  adminGroup : Option GroupRow
  guestGroup : Option GroupRow
  adminUser : Option UserRow
  guestUser : Option UserRow

/-- The state the setup server acts on. -/
structure World where
  /-- The object `WIKI.config`. -/
  config : Config
  /-- The record store behind `WIKI.models`. -/
  db : Store
  /-- The object `openConnections`. -/
  openConnections : Registry
  /-- The callbacks handed to `WIKI.server.close` that the listener has
  still to call when it has closed. -/
  closeCallbacks : List Callback
  /-- The pending `_.delay` timers: what to run and after how many
  milliseconds. -/
  timers : List (TimerAction × Nat)
  /-- The bindings of the running handler. -/
  locals : Locals
  /-- The calls made so far, oldest first. -/
  trace : List Event

/-- Record a call in the trace. -/
def World.emit (w : World) (ev : Event) : World :=
  { w with trace := w.trace ++ [ev] }

/-- The statement `_.set(WIKI.config, key, value)`. -/
def World.configSet (w : World) (key : String) (value : JsVal) : World :=
  { w with config := w.config.set key value, trace := w.trace ++ [.configSet key value] }

/-- The result of running statements: they all returned, or one threw an
error with this message. -/
inductive Outcome where
  | ok (w : World)
  | threw (message : String) (w : World)

/-- One statement of the `try` block. -/
abbrev Step := World → Outcome

/-- Run statements in order until one throws. -/
def exec : List Step → World → Outcome
  | [], w => .ok w
  | s :: rest, w =>
    match s w with
    | .ok w1 => exec rest w1
    | .threw message w1 => .threw message w1

/-- A call that may throw: it is recorded, and has its effect when it
returns. -/
def call (env : Env) (site : Site) (ev : Event) (effect : World → World) : Step :=
  fun w =>
    match env.throws site with
    | some message => .threw message (w.emit ev)
    | none => .ok (effect (w.emit ev))

/-- A statement that first evaluates a helper: when the helper throws, the
statement does nothing more; the helper itself is not recorded. -/
def withHelper (env : Env) (site : Site) (s : Step) : Step :=
  fun w =>
    match env.throws site with
    | some message => .threw message w
    | none => s w

/-- The call `WIKI.logger.info(message)`. -/
def loggerInfo (message : String) : Step :=
  fun w => .ok (w.emit (.loggerInfo message))

/-- The statement `_.set(WIKI.config, key, value)` as a step. -/
def setConfig (key : String) (value : JsVal) : Step :=
  fun w => .ok (w.configSet key value)

/-- One hexadecimal digit. -/
def hexDigit (n : Nat) : Char :=
  Nat.digitChar (n % 16)

/-- The text of `buffer.toString('hex')`. -/
def toHex (bytes : List Nat) : String :=
  String.mk (bytes.flatMap (fun b => [hexDigit (b / 16), hexDigit b]))

/-! ## The listener -/

/-- The `connection` handler: the socket is stored under its key. -/
def onConnection (conn : Conn) (w : World) : World :=
  { w with openConnections := w.openConnections.assign (connKey conn) conn }

/-- The `close` handler of a socket: the key computed when the socket was
accepted is deleted. -/
def onConnClose (conn : Conn) (w : World) : World :=
  { w with openConnections := w.openConnections.delete (connKey conn) }

/-- The call `WIKI.server.close(cb)` of the HTTP server: the listener stops
accepting and keeps `cb` to call it once when it has closed. -/
def serverClose (cb : Callback) (w : World) : World :=
  { w with closeCallbacks := w.closeCallbacks ++ [cb], trace := w.trace ++ [.serverClose cb] }

/-- The function `WIKI.server.destroy`. -/
def serverDestroy (cb : Callback) (w : World) : World :=
  let w1 := serverClose cb w
  w1.openConnections.foldl (fun acc entry => acc.emit (.connDestroy entry.2)) w1

/-- The body of a callback. -/
def runCallback : Callback → World → World
  | .stopCompletion, w =>
    let w1 := w.emit (.loggerInfo "Setup stopped. Starting Wiki.js...")
    { w1 with timers := w1.timers ++ [(.bootMaster, 1000)],
              trace := w1.trace ++ [.delay .bootMaster 1000] }
  | .other _, w => w

/-- The listener has closed: every callback handed to `close` is called
once and dropped. -/
def listenerClosed (w : World) : World :=
  w.closeCallbacks.foldl (fun acc cb => runCallback cb acc) { w with closeCallbacks := [] }

/-- The body of a timer function. -/
def runTimerAction : TimerAction → World → World
  | .bootMaster, w => w.emit .kernelBootMaster

/-- The pending timers expire: each function runs once. -/
def timersExpired (w : World) : World :=
  w.timers.foldl (fun acc t => runTimerAction t.1 acc) { w with timers := [] }

/-- What happens to the listener's sockets. -/
inductive ConnEvent where
  | opened (conn : Conn)
  | closed (conn : Conn)
  deriving DecidableEq

/-- The handlers run for a sequence of socket events. -/
def replay : List ConnEvent → World → World
  | [], w => w
  | .opened conn :: rest, w => replay rest (onConnection conn w)
  | .closed conn :: rest, w => replay rest (onConnClose conn w)

/-- The sockets that have been opened and have not closed, oldest first. -/
def liveAfter : List Conn → List ConnEvent → List Conn
  | live, [] => live
  | live, .opened conn :: rest => liveAfter (live ++ [conn]) rest
  | live, .closed conn :: rest => liveAfter (live.filter (fun c => c ≠ conn)) rest

/-- A sequence of socket events is well formed when a socket opens while no
open socket is that object or has its remote address and port, and closes
while it is open. -/
def wellFormed : List Conn → List ConnEvent → Bool
  | _, [] => true
  | live, .opened conn :: rest =>
    live.all (fun c => c.id ≠ conn.id ∧
      ¬ (c.remoteAddress = conn.remoteAddress ∧ c.remotePort = conn.remotePort))
      && wellFormed (live ++ [conn]) rest
  | live, .closed conn :: rest =>
    live.contains conn && wellFormed (live.filter (fun c => c ≠ conn)) rest

/-! ## The error handler of the listener -/

/-- The error object of an `error` event, with the two properties the handler
reads; `tag` stands for the rest of the object. -/
structure ServerError where
  syscall : Option String
  code : Option String
  tag : Nat
  deriving DecidableEq

/-- How the `error` handler ends. -/
inductive ErrorResult where
  /-- The handler logged `logged` and called `process.exit(status)`. -/
  | exited (logged : String) (status : Nat)
  /-- The handler threw `error`. -/
  | thrown (error : ServerError)
  deriving DecidableEq

/-- The handler `WIKI.server.on('error', ...)`; `port` is the text of
`WIKI.config.port`. -/
def onError (port : String) (error : ServerError) : ErrorResult :=
  if error.syscall ≠ some "listen" then .thrown error
  else if error.code = some "EACCES" then
    .exited ("Listening on port " ++ port ++ " requires elevated privileges!") 1
  else if error.code = some "EADDRINUSE" then
    .exited ("Port " ++ port ++ " is already in use!") 1
  else .thrown error

/-! ## The finalize handler -/

/-- The basic check: `throw new Error(...)` unless the version satisfies
`>=10.14`. -/
def versionCheck (env : Env) : Step :=
  fun w =>
    if env.versionSatisfies then .ok w
    else .threw "Node.js 10.14.x or later required!" w

/-- The path `path.join(process.cwd(), 'data')`. -/
def dataPath (env : Env) : List String :=
  env.cwd ++ ["data"]

/-- The session secret: 32 random bytes as hexadecimal text. -/
def sessionSecret (env : Env) : JsVal :=
  .str (toHex (env.randomBytes 32))

/-- The value set as `WIKI.config.auth`. -/
def authConfig : JsVal :=
  .obj [("audience", .str "urn:wiki.js"), ("tokenExpiration", .str "30m"),
    ("tokenRenewal", .str "14d")]

/-- The value set as `WIKI.config.features`. -/
def featuresConfig : JsVal :=
  .obj [("featurePageRatings", .bool true), ("featurePageComments", .bool true),
    ("featurePersonalWikis", .bool true)]

/-- The value set as `WIKI.config.lang`. -/
def langConfig : JsVal :=
  .obj [("code", .str "en"), ("autoUpdate", .bool true), ("namespacing", .bool false),
    ("namespaces", .arr [])]

/-- The value set as `WIKI.config.logo`. -/
def logoConfig : JsVal :=
  .obj [("hasLogo", .bool false), ("logoIsSquare", .bool false)]

/-- The value set as `WIKI.config.mail`. -/
def mailConfig : JsVal :=
  .obj [("senderName", .str ""), ("senderEmail", .str ""), ("host", .str ""),
    ("port", .num 465), ("secure", .bool true), ("user", .str ""), ("pass", .str ""),
    ("useDKIM", .bool false), ("dkimDomainName", .str ""), ("dkimKeySelector", .str ""),
    ("dkimPrivateKey", .str "")]

/-- The value set as `WIKI.config.seo`. -/
def seoConfig : JsVal :=
  .obj [("description", .str ""), ("robots", .arr [.str "index", .str "follow"]),
    ("analyticsService", .str ""), ("analyticsId", .str "")]

/-- The value set as `WIKI.config.telemetry`. -/
def telemetryConfig (env : Env) (req : Body) : JsVal :=
  .obj [("isEnabled", .bool req.telemetry.isTrue), ("clientId", env.telemetryCid)]

/-- The value set as `WIKI.config.theming`. -/
def themingConfig : JsVal :=
  .obj [("theme", .str "default"), ("darkMode", .bool false)]

/-- The value set as `WIKI.config.certs` from the generated pair. -/
def certsConfig (env : Env) (certs : String × String) : JsVal :=
  .obj [("jwk", env.pem2jwk certs.1), ("public", .str certs.1), ("private", .str certs.2)]

/-- The awaited `crypto.randomBytesAsync(32)` whose text is stored as
`sessionSecret`. -/
def drawSessionSecret (env : Env) : Step :=
  call env .randomBytes (.randomBytesAsync 32)
    (fun w => w.configSet "sessionSecret" (sessionSecret env))

/-- The call `crypto.generateKeyPairSync('rsa', ...)`, whose passphrase is
read from `WIKI.config.sessionSecret`; the pair is bound to `certs`. -/
def generateCertificates (env : Env) : Step :=
  fun w =>
    call env .generateKeyPair
      (.generateKeyPairSync "rsa" 2048 "aes-256-cbc" (w.config.get "sessionSecret"))
      (fun w1 => { w1 with locals :=
        { w1.locals with certs := some (env.generateKeyPair (w.config.get "sessionSecret")) } }) w

/-- The statement `_.set(WIKI.config, 'certs', {...})`; reading a property of
an unbound `certs` is a `TypeError`. -/
def setCerts (env : Env) : Step :=
  fun w =>
    match w.locals.certs with
    | some certs =>
      withHelper env .pem2jwk
        (fun w1 => .ok (w1.configSet "certs" (certsConfig env certs))) w
    | none => .threw "TypeError" w

/-- The names given to `WIKI.configSvc.saveToDb`. -/
def savedSections : List String :=
  ["auth", "certs", "company", "features", "graphEndpoint", "host", "lang", "logo",
   "mail", "seo", "sessionSecret", "telemetry", "theming", "title"]

/-- The awaited `WIKI.configSvc.saveToDb([...])`; the event carries each name
with the value `WIKI.config` holds under it at the call. -/
def saveConfig (env : Env) : Step :=
  fun w =>
    call env .saveToDb (.saveToDb (savedSections.map (fun key => (key, w.config.get key)))) id w

/-- The default locale. -/
def defaultLocale : LocaleRow :=
  { code := "en", strings := [], isRTL := false, name := "English", nativeName := "English" }

/-- The administrators group. -/
def adminGroupFields : GroupInsert :=
  { name := "Administrators", permissions := ["manage:system"], pageRules := [], isSystem := true }

/-- The guests group. -/
def guestGroupFields : GroupInsert :=
  { name := "Guests",
    permissions := ["read:pages", "read:assets", "read:comments"],
    pageRules := [{ id := "guest", roles := ["read:pages", "read:assets", "read:comments"],
                    matchKind := "START", deny := false, path := "", locales := [] }],
    isSystem := true }

/-- The filter of the delete before the administrator is inserted. -/
def adminFilter (req : Body) : UserWhere :=
  { providerKey := "local", email := req.adminEmail }

/-- The administrator account. -/
def adminUserFields (req : Body) : UserInsert :=
  { email := req.adminEmail, provider := "local", password := req.adminPassword,
    name := "Administrator", locale := "en", defaultEditor := "markdown",
    tfaIsActive := false, isSystem := none, isActive := true, isVerified := true }

/-- The filter of the delete before the guest is inserted. -/
def guestFilter : UserWhere :=
  { providerKey := "local", email := "guest@example.com" }

/-- The guest account. -/
def guestUserFields : UserInsert :=
  { email := "guest@example.com", provider := "local", password := "",
    name := "Guest", locale := "en", defaultEditor := "markdown",
    tfaIsActive := false, isSystem := some true, isActive := true, isVerified := true }

/-- The site navigation. -/
def siteNavigation (env : Env) : NavRow :=
  { key := "site",
    config := [{ id := env.uuid, icon := "home", kind := "link", label := "Home",
                 target := "/", targetType := "home" }] }

/-- The awaited insert of a group, bound by `bind`. -/
def insertGroup (env : Env) (site : Site) (fields : GroupInsert)
    (bind : GroupRow → Locals → Locals) : Step :=
  call env site (.groupsInsert fields)
    (fun w => { w with db := (w.db.insertGroup fields).2,
                       locals := bind (w.db.insertGroup fields).1 w.locals })

/-- The awaited delete of the accounts a filter selects. -/
def deleteUsers (env : Env) (site : Site) (filter : UserWhere) : Step :=
  call env site (.usersDelete filter) (fun w => { w with db := w.db.deleteUsers filter })

/-- The awaited insert of an account, bound by `bind`. -/
def insertUser (env : Env) (site : Site) (fields : UserInsert)
    (bind : UserRow → Locals → Locals) : Step :=
  call env site (.usersInsert fields)
    (fun w => { w with db := (w.db.insertUser fields).2,
                       locals := bind (w.db.insertUser fields).1 w.locals })

/-- The awaited `user.$relatedQuery('groups').relate(group.id)`; reading a
property of an unbound name is a `TypeError`. -/
def relateUser (env : Env) (site : Site) (user : Locals → Option UserRow)
    (group : Locals → Option GroupRow) : Step :=
  fun w =>
    match user w.locals, group w.locals with
    | some u, some g =>
      call env site (.relateGroups u.id g.id) (fun w1 => { w1 with db := w1.db.relate u.id g.id }) w
    | _, _ => .threw "TypeError" w

/-- The body of the success response. -/
def successBody (w : World) : JsVal :=
  .obj [("ok", .bool true), ("redirectPath", .str "/"), ("redirectPort", w.config.get "port")]

/-- The body of the failure response. -/
def failureBody (message : String) : JsVal :=
  .obj [("ok", .bool false), ("error", .str message)]

/-- The argument of `WIKI.system.upgradeFromMongo`. -/
def upgradeOptions (env : Env) (req : Body) : JsVal :=
  .obj [("mongoCnStr", env.parseConfigValue req.upgMongo)]

/-- The legacy import, run when `req.body.upgrade` is truthy. -/
def upgradeSteps (env : Env) (req : Body) : List Step :=
  if req.upgrade.truthy then
    [withHelper env .parseConfigValue
      (call env .upgradeFromMongo (.upgradeFromMongo (upgradeOptions env req)) id)]
  else []

/-- The statements under `// Create directory structure`. -/
def directorySteps (env : Env) : List Step :=
  [ loggerInfo "Creating data directories...",
    withHelper env .dataPath (fun w => .ok w),
    call env .ensureDataDir (.ensureDir (dataPath env)) id,
    call env .emptyCacheDir (.emptyDir (dataPath env ++ ["cache"])) id,
    call env .ensureUploadsDir (.ensureDir (dataPath env ++ ["uploads"])) id ]

/-- The statements under `// Set config`. -/
def configSteps (env : Env) (req : Body) : List Step :=
  [ setConfig "auth" authConfig,
    setConfig "company" (.str ""),
    setConfig "features" featuresConfig,
    setConfig "graphEndpoint" (.str "https://graph.requarks.io"),
    setConfig "host" (.str "http://"),
    setConfig "lang" langConfig,
    setConfig "logo" logoConfig,
    setConfig "mail" mailConfig,
    setConfig "seo" seoConfig,
    drawSessionSecret env,
    setConfig "telemetry" (telemetryConfig env req),
    setConfig "theming" themingConfig,
    setConfig "title" (.str "Wiki.js") ]

/-- The statements under `// Generate certificates`. -/
def certificateSteps (env : Env) : List Step :=
  [ loggerInfo "Generating certificates...",
    generateCertificates env,
    setCerts env ]

/-- The statements under `// Save config to DB`. -/
def persistSteps (env : Env) : List Step :=
  [ loggerInfo "Persisting config to DB...",
    saveConfig env ]

/-- The statements from `// Create default locale` to the site navigation:
the seed records and the registries. -/
def seedSteps (env : Env) (req : Body) : List Step :=
  [ loggerInfo "Installing default locale...",
    call env .insertLocale (.localesInsert defaultLocale)
      (fun w => { w with db := w.db.insertLocale defaultLocale }),
    loggerInfo "Creating default groups...",
    insertGroup env .insertAdminGroup adminGroupFields (fun g l => { l with adminGroup := some g }),
    insertGroup env .insertGuestGroup guestGroupFields (fun g l => { l with guestGroup := some g }),
    call env .refreshStrategies .refreshStrategiesFromDisk id,
    call env .enableLocal (.authenticationPatch true "local") id,
    call env .refreshEditors .refreshEditorsFromDisk id,
    call env .enableMarkdown (.editorsPatch true "markdown") id,
    call env .refreshLoggers .refreshLoggersFromDisk id,
    call env .refreshRenderers .refreshRenderersFromDisk id,
    call env .refreshSearchEngines .refreshSearchEnginesFromDisk id,
    call env .enableDb (.searchEnginesPatch true "db") id,
    call env .refreshTargets .refreshTargetsFromDisk id,
    loggerInfo "Creating root administrator...",
    deleteUsers env .deleteAdminUser (adminFilter req),
    insertUser env .insertAdminUser (adminUserFields req) (fun u l => { l with adminUser := some u }),
    relateUser env .relateAdminUser (fun l => l.adminUser) (fun l => l.adminGroup),
    loggerInfo "Creating guest account...",
    deleteUsers env .deleteGuestUser guestFilter,
    insertUser env .insertGuestUser guestUserFields (fun u l => { l with guestUser := some u }),
    relateUser env .relateGuestUser (fun l => l.guestUser) (fun l => l.guestGroup),
    loggerInfo "Creating default site navigation",
    call env .deleteNavigation (.navigationDelete "site")
      (fun w => { w with db := w.db.deleteNavigation "site" }),
    withHelper env .uuid
      (call env .insertNavigation (.navigationInsert (siteNavigation env))
        (fun w => { w with db := w.db.insertNavigation (siteNavigation env) })) ]

/-- The statements of the `try` block up to the point where the
configuration is saved. -/
def assemblySteps (env : Env) (req : Body) : List Step :=
  [versionCheck env] ++ upgradeSteps env req ++ directorySteps env ++ configSteps env req ++
    certificateSteps env ++ persistSteps env

/-- The statements of the `try` block up to the last seed record. -/
def bootstrapSteps (env : Env) (req : Body) : List Step :=
  assemblySteps env req ++ seedSteps env req

/-- The statements of the `try` block after the last seed record: the
response, leaving setup mode, and the stop of the listener. -/
def handoffSteps : List Step :=
  [ loggerInfo "Setup is complete!",
    fun w => .ok ((w.emit (.resJson (successBody w))).emit .resEnd),
    fun w => .ok (w.configSet "setup" (.bool false)),
    loggerInfo "Stopping Setup...",
    fun w => .ok (serverDestroy .stopCompletion w) ]

/-- The statements of the `try` block. -/
def tryBlock (env : Env) (req : Body) : List Step :=
  bootstrapSteps env req ++ handoffSteps

/-- The bindings of a handler that has just been entered. -/
def noLocals : Locals :=
  { certs := none, adminGroup := none, guestGroup := none, adminUser := none, guestUser := none }

/-- The `catch` clause: `res.json({ ok: false, error: err.message })`. -/
def catchClause (message : String) (w : World) : World :=
  w.emit (.resJson (failureBody message))

/-- The handler is entered: nothing is bound yet, and the telemetry event
is sent before the `try` block. -/
def enterHandler (w : World) : World :=
  { w with locals := noLocals }.emit (.telemetrySendEvent "setup" "finalize")

/-- The handler of `POST /finalize`. -/
def finalize (env : Env) (req : Body) (w : World) : World :=
  match exec (tryBlock env req) (enterHandler w) with
  | .ok w1 => w1
  | .threw message w1 => catchClause message w1

/-! ## Observations -/

/-- The world an outcome ends in. -/
def Outcome.world : Outcome → World
  | .ok w => w
  | .threw _ w => w

/-- The events a world has recorded since an earlier world. -/
def World.since (w earlier : World) : List Event :=
  w.trace.drop earlier.trace.length

/-- The events of the handoff: a response, leaving setup mode, the stop of
the listener and what follows from it. -/
def Event.isHandoff : Event → Bool
  | .resJson _ => true
  | .resEnd => true
  | .configSet key _ => key = "setup"
  | .serverClose _ => true
  | .connDestroy _ => true
  | .delay _ _ => true
  | .kernelBootMaster => true
  | _ => false

/-- The events that write or save the configuration. -/
def Event.isConfigEvent : Event → Bool
  | .configSet _ _ => true
  | .saveToDb _ => true
  | _ => false

/-- The calls to collaborators and the responses: every event but the log
lines, the telemetry event, the assignments to `WIKI.config` and
`res.end()`. -/
def Event.isEffect : Event → Bool
  | .loggerInfo _ => false
  | .telemetrySendEvent _ _ => false
  | .configSet _ _ => false
  | .resEnd => false
  | _ => true

/-- What the statements before the handoff leave alone. -/
structure Frame where
  handoff : List Event
  setup : JsVal
  port : JsVal
  openConnections : Registry
  closeCallbacks : List Callback
  timers : List (TimerAction × Nat)

/-- The frame of a world. -/
def World.frame (w : World) : Frame :=
  { handoff := w.trace.filter Event.isHandoff,
    setup := w.config.get "setup",
    port := w.config.get "port",
    openConnections := w.openConnections,
    closeCallbacks := w.closeCallbacks,
    timers := w.timers }

/-- A statement keeps an observation of the world, however it ends. -/
def Step.keeps {α : Type} (f : World → α) (s : Step) : Prop :=
  ∀ w, f (s w).world = f w

/-- A statement that throws has changed neither the store nor the
configuration. -/
def Step.throwsClean (s : Step) : Prop :=
  ∀ w message w1, s w = .threw message w1 → w1.db = w.db ∧ w1.config = w.config

/-- The sections of the Configuration Snapshot as the data model of the
specification enumerates them: auth, certs, company, features, host, language,
logo, mail, SEO, session secret, telemetry, theming, title. -/
def specSnapshotSections : List String :=
  ["auth", "certs", "company", "features", "host", "lang", "logo", "mail", "seo",
   "sessionSecret", "telemetry", "theming", "title"]

/-- The sections assigned under `// Set config`, in order, with the values
assigned. -/
def draftSections (env : Env) (req : Body) : List (String × JsVal) :=
  [("auth", authConfig), ("company", .str ""), ("features", featuresConfig),
   ("graphEndpoint", .str "https://graph.requarks.io"), ("host", .str "http://"),
   ("lang", langConfig), ("logo", logoConfig), ("mail", mailConfig), ("seo", seoConfig),
   ("sessionSecret", sessionSecret env), ("telemetry", telemetryConfig env req),
   ("theming", themingConfig), ("title", .str "Wiki.js")]

/-- The sections in the order the handler assigns them, with the values it
assigns: those under `// Set config`, then `certs`. -/
def assignedSections (env : Env) (req : Body) : List (String × JsVal) :=
  draftSections env req ++ [("certs", certsConfig env (env.generateKeyPair (sessionSecret env)))]

/-- The sections as `saveToDb` is given them: the saved names, each with the
value assigned under it. -/
def persistedSections (env : Env) (req : Body) : List (String × JsVal) :=
  [("auth", authConfig), ("certs", certsConfig env (env.generateKeyPair (sessionSecret env))),
   ("company", .str ""), ("features", featuresConfig),
   ("graphEndpoint", .str "https://graph.requarks.io"), ("host", .str "http://"),
   ("lang", langConfig), ("logo", logoConfig), ("mail", mailConfig), ("seo", seoConfig),
   ("sessionSecret", sessionSecret env), ("telemetry", telemetryConfig env req),
   ("theming", themingConfig), ("title", .str "Wiki.js")]

/-- The configuration events of a run that fails nowhere: every section is
assigned, the snapshot is saved, and setup mode is left. -/
def configScript (env : Env) (req : Body) : List Event :=
  (assignedSections env req).map (fun kv => Event.configSet kv.1 kv.2) ++
    [.saveToDb (persistedSections env req), .configSet "setup" (.bool false)]

/-- The event of the legacy import, when it is run. -/
def upgradeEvents (env : Env) (req : Body) : List Event :=
  if req.upgrade.truthy then [.upgradeFromMongo (upgradeOptions env req)] else []

/-- The events of the directory statements when none throws. -/
def directoryEvents (env : Env) : List Event :=
  [ .loggerInfo "Creating data directories...",
    .ensureDir (dataPath env),
    .emptyDir (dataPath env ++ ["cache"]),
    .ensureDir (dataPath env ++ ["uploads"]) ]

/-- The events of the configuration statements when none throws. -/
def sectionEvents (env : Env) (req : Body) : List Event :=
  [ .configSet "auth" authConfig,
    .configSet "company" (.str ""),
    .configSet "features" featuresConfig,
    .configSet "graphEndpoint" (.str "https://graph.requarks.io"),
    .configSet "host" (.str "http://"),
    .configSet "lang" langConfig,
    .configSet "logo" logoConfig,
    .configSet "mail" mailConfig,
    .configSet "seo" seoConfig,
    .randomBytesAsync 32,
    .configSet "sessionSecret" (sessionSecret env),
    .configSet "telemetry" (telemetryConfig env req),
    .configSet "theming" themingConfig,
    .configSet "title" (.str "Wiki.js") ]

/-- The events of the certificate statements when none throws. -/
def certificateEvents (env : Env) : List Event :=
  [ .loggerInfo "Generating certificates...",
    .generateKeyPairSync "rsa" 2048 "aes-256-cbc" (sessionSecret env),
    .configSet "certs" (certsConfig env (env.generateKeyPair (sessionSecret env))) ]

/-- The events of saving the configuration when nothing throws. -/
def persistEvents (env : Env) (req : Body) : List Event :=
  [ .loggerInfo "Persisting config to DB...",
    .saveToDb (persistedSections env req) ]

/-- The events of the seed statements when none throws, for the ids the
store gives to the administrator and to the administrators group. -/
def seedEvents (env : Env) (req : Body) (userId groupId : Nat) : List Event :=
  [ .loggerInfo "Installing default locale...",
    .localesInsert defaultLocale,
    .loggerInfo "Creating default groups...",
    .groupsInsert adminGroupFields,
    .groupsInsert guestGroupFields,
    .refreshStrategiesFromDisk,
    .authenticationPatch true "local",
    .refreshEditorsFromDisk,
    .editorsPatch true "markdown",
    .refreshLoggersFromDisk,
    .refreshRenderersFromDisk,
    .refreshSearchEnginesFromDisk,
    .searchEnginesPatch true "db",
    .refreshTargetsFromDisk,
    .loggerInfo "Creating root administrator...",
    .usersDelete (adminFilter req),
    .usersInsert (adminUserFields req),
    .relateGroups userId groupId,
    .loggerInfo "Creating guest account...",
    .usersDelete guestFilter,
    .usersInsert guestUserFields,
    .relateGroups (userId + 1) (groupId + 1),
    .loggerInfo "Creating default site navigation",
    .navigationDelete "site",
    .navigationInsert (siteNavigation env) ]

/-- The events of the handoff, for the configured port and the registry. -/
def handoffEvents (port : JsVal) (reg : Registry) : List Event :=
  [ .loggerInfo "Setup is complete!",
    .resJson (.obj [("ok", .bool true), ("redirectPath", .str "/"), ("redirectPort", port)]),
    .resEnd,
    .configSet "setup" (.bool false),
    .loggerInfo "Stopping Setup...",
    .serverClose .stopCompletion ] ++ reg.map (fun e => Event.connDestroy e.2)

/-- The store after the seed statements when none throws. -/
def seededStore (env : Env) (req : Body) (db : Store) : Store :=
  { locales := db.locales ++ [defaultLocale],
    groups := db.groups ++ [⟨db.nextGroupId, adminGroupFields⟩,
      ⟨db.nextGroupId + 1, guestGroupFields⟩],
    users := (db.users.filter (fun row => !(adminFilter req).selects row) ++
        [UserRow.mk db.nextUserId (adminUserFields req)]).filter
          (fun row => !guestFilter.selects row) ++
        [UserRow.mk (db.nextUserId + 1) guestUserFields],
    userGroups := db.userGroups ++ [(db.nextUserId, db.nextGroupId),
      (db.nextUserId + 1, db.nextGroupId + 1)],
    navigation := db.navigation.filter (fun row => row.key ≠ "site") ++ [siteNavigation env],
    nextGroupId := db.nextGroupId + 2,
    nextUserId := db.nextUserId + 2 }

/-- The configuration after the statements under `// Set config`. -/
def draftConfig (env : Env) (req : Body) (cfg : Config) : Config :=
  (draftSections env req).foldl (fun c kv => c.set kv.1 kv.2) cfg

/-- The configuration after every section has been assigned. -/
def assembledConfig (env : Env) (req : Body) (cfg : Config) : Config :=
  (draftConfig env req cfg).set "certs" (certsConfig env (env.generateKeyPair (sessionSecret env)))

/-- The accounts with a natural key (provider, email). -/
def Store.accounts (db : Store) (provider email : String) : List UserRow :=
  db.users.filter (fun u => u.fields.provider = provider ∧ u.fields.email = email)

/-- The accounts related to a group of the given name. -/
def Store.membersOf (db : Store) (groupName : String) : List UserRow :=
  db.users.filter (fun u =>
    db.groups.any (fun g => g.fields.name = groupName ∧ (u.id, g.id) ∈ db.userGroups))

/-- A store without records. -/
def Store.hasNoRecords (db : Store) : Prop :=
  db.locales = [] ∧ db.groups = [] ∧ db.users = [] ∧ db.userGroups = [] ∧ db.navigation = []

/-- The seed records as the testable property lists them for an
administrator email: one locale, the two groups with their permission sets
and page rules, exactly two accounts, the first with the natural key
(`local`, that email) and the second with (`local`, `guest@example.com`),
the one member of the Administrators group carrying that email, the one
member of the Guests group being the guest with the empty password and
active, and one navigation record with one Home link. -/
def Store.seededFor (db : Store) (adminEmail : String) : Prop :=
  db.locales.map (fun l => l.code) = ["en"] ∧
  db.groups.map (fun g => (g.fields.name, g.fields.permissions)) =
    [("Administrators", ["manage:system"]),
     ("Guests", ["read:pages", "read:assets", "read:comments"])] ∧
  db.groups.map (fun g => g.fields.pageRules.map (fun r => (r.matchKind, r.path, r.deny))) =
    [[], [("START", "", false)]] ∧
  db.users.map (fun u => (u.fields.provider, u.fields.email)) =
    [("local", adminEmail), ("local", "guest@example.com")] ∧
  (db.membersOf "Administrators").map (fun u => u.fields.email) = [adminEmail] ∧
  (db.membersOf "Guests").map (fun u => (u.fields.email, u.fields.password, u.fields.isActive)) =
    [("guest@example.com", "", true)] ∧
  db.navigation.map (fun n => (n.key, n.config.map (fun i => (i.label, i.target)))) =
    [("site", [("Home", "/")])]

instance (db : Store) (adminEmail : String) : Decidable (db.seededFor adminEmail) := by
  unfold Store.seededFor
  infer_instance

/-- The calls of the handler that come after the guest insert. -/
def lateSites : List Site :=
  [.relateGuestUser, .deleteNavigation, .uuid, .insertNavigation]

/-- The seed statements up to and including the guest insert. -/
def seedStepsThroughGuest (env : Env) (req : Body) : List Step :=
  (seedSteps env req).take 21

/-- The seed statements after the guest insert. -/
def seedStepsAfterGuest (env : Env) (req : Body) : List Step :=
  (seedSteps env req).drop 21

/-- A statement preserves a property of the world, however it ends. -/
def Step.preserves (P : World → Prop) (s : Step) : Prop :=
  ∀ w, P w → P (s w).world

/-- Every account of the world was in the base list or carries the fields of
the administrator insert or of the guest insert. -/
def onlySeedAccountsAdded (base : List UserRow) (req : Body) (w : World) : Prop :=
  ∀ row ∈ w.db.users,
    row ∈ base ∨ row.fields = adminUserFields req ∨ row.fields = guestUserFields

/-- The calls of the account statements: delete, insert and relate of a
user. -/
def Event.isAccountCall : Event → Bool
  | .usersDelete _ => true
  | .usersInsert _ => true
  | .relateGroups _ _ => true
  | _ => false

/-- Reading decimal digits back as a number. -/
def readDecimal (digits : List Char) : Nat :=
  digits.foldl (fun acc c => acc * 10 + (c.toNat - 48)) 0

/-- Two sockets differ in remote address or remote port. -/
def differentPeer (c d : Conn) : Prop :=
  ¬ (c.remoteAddress = d.remoteAddress ∧ c.remotePort = d.remotePort)

/-- The registry that holds exactly the given sockets, each under its key. -/
def entriesOf (live : List Conn) : Registry :=
  live.map (fun c => (connKey c, c))

/-! ## Concrete inputs -/

/-- An environment in which no call throws. -/
def calmEnv : Env :=
  { versionSatisfies := true, cwd := ["srv", "wiki"], throws := fun _ => none,
    parseConfigValue := id, randomBytes := fun n => List.replicate n 171,
    generateKeyPair := fun _ => ("PUBLIC", "PRIVATE"),
    pem2jwk := fun _ => .obj [("kty", .str "RSA")],
    telemetryCid := .str "cid", uuid := "u-1" }

/-- The environment in which one call throws an error with a message. -/
def failingAt (site : Site) (message : String) : Env :=
  { calmEnv with throws := fun s => if s = site then some message else none }

/-- A store without records. -/
def emptyStore : Store :=
  { locales := [], groups := [], users := [], userGroups := [], navigation := [],
    nextGroupId := 1, nextUserId := 1 }

/-- A system on which setup has not run: port 3000, setup mode, no socket. -/
def freshWorld : World :=
  { config := [("port", .num 3000), ("setup", .bool true)], db := emptyStore,
    openConnections := [], closeCallbacks := [], timers := [], locals := noLocals, trace := [] }

/-- The request of the scenario. -/
def scenarioBody : Body :=
  { adminEmail := "a@x.com", adminPassword := "secret", telemetry := .bool true,
    upgrade := .bool false, upgMongo := .undefined }

/-- A request whose administrator email is the guest address. -/
def guestEmailBody : Body :=
  { scenarioBody with adminEmail := "guest@example.com" }

/-- Three sockets, the third from the peer of the first. -/
def socketA : Conn := { id := 1, remoteAddress := "::1", remotePort := 50000 }

/-- A second socket. -/
def socketB : Conn := { id := 2, remoteAddress := "10.0.0.7", remotePort := 50000 }

/-- A later socket from the peer of the first. -/
def socketC : Conn := { id := 3, remoteAddress := "::1", remotePort := 50000 }

/-- A well-formed sequence of socket events. -/
def socketEvents : List ConnEvent :=
  [.opened socketA, .opened socketB, .closed socketA, .opened socketC]

/-! # Theorems -/

/-! ## The registry key -/

theorem digitChar_ne_colon (k : Nat) (h : k < 10) : Nat.digitChar k ≠ ':' := by
  interval_cases k <;> decide

theorem digitChar_value (k : Nat) (h : k < 10) : (Nat.digitChar k).toNat - 48 = k := by
  interval_cases k <;> rfl

theorem toDigitsCore_acc (fuel : Nat) :
    ∀ n ds, Nat.toDigitsCore 10 fuel n ds = Nat.toDigitsCore 10 fuel n [] ++ ds := by
  induction fuel with
  | zero => intro n ds; simp [Nat.toDigitsCore]
  | succ f ih =>
    intro n ds
    simp only [Nat.toDigitsCore]
    split_ifs with h
    · simp
    · rw [ih (n / 10) (_ :: ds), ih (n / 10) [_]]; simp

theorem readDecimal_toDigitsCore (fuel : Nat) :
    ∀ n, n < fuel → readDecimal (Nat.toDigitsCore 10 fuel n []) = n := by
  induction fuel with
  | zero => intro n h; omega
  | succ f ih =>
    intro n h
    simp only [Nat.toDigitsCore]
    split_ifs with h0
    · simp [readDecimal]
      rw [digitChar_value _ (Nat.mod_lt _ (by norm_num))]
      omega
    · rw [toDigitsCore_acc]
      have hlt : n / 10 < f := by omega
      have := ih (n / 10) hlt
      simp only [readDecimal, List.foldl_append, List.foldl_cons, List.foldl_nil] at this ⊢
      rw [this, digitChar_value _ (Nat.mod_lt _ (by norm_num))]
      omega

theorem toDigitsCore_no_colon (fuel : Nat) :
    ∀ n ds, (∀ c ∈ ds, c ≠ ':') → ∀ c ∈ Nat.toDigitsCore 10 fuel n ds, c ≠ ':' := by
  induction fuel with
  | zero => intro n ds h; simpa [Nat.toDigitsCore] using h
  | succ f ih =>
    intro n ds h
    simp only [Nat.toDigitsCore]
    have h1 : ∀ c ∈ Nat.digitChar (n % 10) :: ds, c ≠ ':' := by
      intro c hc
      rcases List.mem_cons.mp hc with rfl | hc
      · exact digitChar_ne_colon _ (Nat.mod_lt _ (by norm_num))
      · exact h c hc
    split_ifs with h0
    · exact h1
    · exact ih _ _ h1

theorem toDigits_inj (p q : Nat) (h : Nat.toDigits 10 p = Nat.toDigits 10 q) : p = q := by
  have hp := readDecimal_toDigitsCore (p + 1) p (by omega)
  have hq := readDecimal_toDigitsCore (q + 1) q (by omega)
  unfold Nat.toDigits at h
  rw [h] at hp
  omega

theorem toDigits_no_colon (p : Nat) : ':' ∉ Nat.toDigits 10 p := by
  intro h
  exact toDigitsCore_no_colon (p + 1) p [] (by simp) ':' h rfl

/-- Splitting at a separator that the tails do not contain. -/
theorem split_at_last {α : Type} (x : α) :
    ∀ (l1 l2 r1 r2 : List α), x ∉ r1 → x ∉ r2 → l1 ++ x :: r1 = l2 ++ x :: r2 →
      l1 = l2 ∧ r1 = r2 := by
  intro l1
  induction l1 with
  | nil =>
    intro l2 r1 r2 h1 h2 h
    cases l2 with
    | nil => simpa using h
    | cons b l2 =>
      simp only [List.nil_append, List.cons_append, List.cons.injEq] at h
      exact absurd (h.2 ▸ (by simp : x ∈ l2 ++ x :: r2)) h1
  | cons a l1 ih =>
    intro l2 r1 r2 h1 h2 h
    cases l2 with
    | nil =>
      simp only [List.nil_append, List.cons_append, List.cons.injEq] at h
      exact absurd (h.2 ▸ (by simp : x ∈ l1 ++ x :: r1)) h2
    | cons b l2 =>
      simp only [List.cons_append, List.cons.injEq] at h
      obtain ⟨h3, h4⟩ := ih l2 r1 r2 h1 h2 h.2
      exact ⟨by rw [h.1, h3], h4⟩

theorem registryKey_data (a : String) (p : Nat) :
    (registryKey a p).data = a.data ++ ':' :: Nat.toDigits 10 p := by
  simp [registryKey, toString, Nat.repr, String.data_append]
  rfl

theorem registryKey_inj (a b : String) (p q : Nat) (h : registryKey a p = registryKey b q) :
    a = b ∧ p = q := by
  have h1 := congrArg String.data h
  rw [registryKey_data, registryKey_data] at h1
  obtain ⟨h2, h3⟩ := split_at_last ':' _ _ _ _ (toDigits_no_colon p) (toDigits_no_colon q) h1
  exact ⟨String.ext h2, toDigits_inj p q h3⟩


/-! ## The registry -/

theorem connKey_ne {c d : Conn} (h : differentPeer c d) : connKey c ≠ connKey d := by
  intro hk
  exact h (registryKey_inj _ _ _ _ hk)

theorem Registry.get_assign_ne (reg : Registry) (key other : String) (conn : Conn)
    (h : key ≠ other) : (reg.assign key conn).get other = reg.get other := by
  induction reg with
  | nil => simp [Registry.assign, Registry.get, List.find?, h]
  | cons e rest ih =>
    obtain ⟨k, c⟩ := e
    simp only [Registry.assign]
    split_ifs with hk
    · subst hk
      simp [Registry.get, List.find?, h]
    · simp only [Registry.get, List.find?] at ih ⊢
      by_cases hko : k = other
      · simp [hko]
      · simp [hko, ih]

theorem Registry.get_delete_ne (reg : Registry) (key other : String)
    (h : key ≠ other) : (reg.delete key).get other = reg.get other := by
  induction reg with
  | nil => simp [Registry.delete, Registry.get]
  | cons e rest ih =>
    obtain ⟨k, c⟩ := e
    simp only [Registry.delete, Registry.get] at ih ⊢
    rw [List.filter_cons]
    by_cases hk : k = key
    · have hko : k ≠ other := by rw [hk]; exact h
      simp only [hk, ne_eq, not_true_eq_false, decide_False, Bool.false_eq_true, if_false]
      rw [List.find?_cons_of_neg _ (by simpa [hk] using h)]
      exact ih
    · simp only [ne_eq, hk, not_false_eq_true, decide_True, if_true]
      by_cases hko : k = other
      · rw [List.find?_cons_of_pos _ (by simpa using hko), List.find?_cons_of_pos _ (by simpa using hko)]
      · rw [List.find?_cons_of_neg _ (by simpa using hko), List.find?_cons_of_neg _ (by simpa using hko)]
        exact ih

theorem Registry.assign_fresh (reg : Registry) (key : String) (conn : Conn)
    (h : ∀ e ∈ reg, e.1 ≠ key) : reg.assign key conn = reg ++ [(key, conn)] := by
  induction reg with
  | nil => rfl
  | cons e rest ih =>
    obtain ⟨k, c⟩ := e
    have hk : k ≠ key := h (k, c) (by simp)
    simp only [Registry.assign, hk, if_false, List.cons_append]
    rw [ih (fun e he => h e (List.mem_cons_of_mem _ he))]

theorem differentPeer_symm : Symmetric differentPeer := by
  intro c d h hcd
  exact h ⟨hcd.1.symm, hcd.2.symm⟩

theorem replay_registry : ∀ (evs : List ConnEvent) (live : List Conn) (w : World),
    wellFormed live evs = true → w.openConnections = entriesOf live →
    live.Pairwise differentPeer →
    (replay evs w).openConnections = entriesOf (liveAfter live evs) ∧
      (liveAfter live evs).Pairwise differentPeer := by
  intro evs
  induction evs with
  | nil => intro live w _ hreg hp; exact ⟨hreg, hp⟩
  | cons ev rest ih =>
    intro live w hwf hreg hp
    cases ev with
    | opened conn =>
      simp only [wellFormed, Bool.and_eq_true, List.all_eq_true, decide_eq_true_eq] at hwf
      obtain ⟨hall, hrest⟩ := hwf
      have hdiff : ∀ d ∈ live, differentPeer d conn := fun d hd => (hall d hd).2
      apply ih (live ++ [conn]) (onConnection conn w) hrest
      · simp only [onConnection, hreg]
        rw [Registry.assign_fresh]
        · simp [entriesOf]
        · intro e he
          simp only [entriesOf, List.mem_map] at he
          obtain ⟨d, hd, rfl⟩ := he
          exact connKey_ne (hdiff d hd)
      · rw [List.pairwise_append]
        refine ⟨hp, List.pairwise_singleton _ _, ?_⟩
        intro d hd x hx
        rw [List.mem_singleton] at hx
        subst hx
        exact hdiff d hd
    | closed conn =>
      simp only [wellFormed, Bool.and_eq_true] at hwf
      obtain ⟨hmem0, hrest⟩ := hwf
      have hmem : conn ∈ live := by simpa using hmem0
      apply ih (live.filter (fun c => c ≠ conn)) (onConnClose conn w) hrest
      · simp only [onConnClose, hreg, Registry.delete, entriesOf, List.filter_map]
        congr 1
        apply List.filter_congr
        intro d hd
        simp only [Function.comp, ne_eq, decide_not, Bool.not_eq_eq_eq_not, Bool.not_not,
          decide_eq_decide]
        constructor
        · intro hk
          by_contra hne
          exact connKey_ne (hp.forall differentPeer_symm hd hmem hne) hk
        · intro h; rw [h]
      · exact hp.filter _

theorem replay_trace : ∀ (evs : List ConnEvent) (w : World),
    (replay evs w).trace = w.trace ∧ (replay evs w).closeCallbacks = w.closeCallbacks ∧
      (replay evs w).timers = w.timers := by
  intro evs
  induction evs with
  | nil => intro w; exact ⟨rfl, rfl, rfl⟩
  | cons ev rest ih =>
    intro w
    cases ev with
    | opened conn => simpa [replay, onConnection] using ih (onConnection conn w)
    | closed conn => simpa [replay, onConnClose] using ih (onConnClose conn w)

theorem foldl_emit (f : String × Conn → Event) : ∀ (reg : Registry) (w : World),
    reg.foldl (fun acc entry => acc.emit (f entry)) w =
      { w with trace := w.trace ++ reg.map f } := by
  intro reg
  induction reg with
  | nil => intro w; simp
  | cons e rest ih =>
    intro w
    simp only [List.foldl_cons, List.map_cons]
    rw [ih]
    simp [World.emit]

theorem serverDestroy_eq (cb : Callback) (w : World) :
    serverDestroy cb w =
      { w with closeCallbacks := w.closeCallbacks ++ [cb],
               trace := w.trace ++ .serverClose cb :: w.openConnections.map (fun e => .connDestroy e.2) } := by
  simp [serverDestroy, serverClose, foldl_emit (fun e => Event.connDestroy e.2)]


/-- C10: the registry key `address + ':' + port` determines the remote address
and the remote port, also for addresses that contain `:`; so a socket with
another address or port has another key, and neither the registration nor
the close of a socket changes what the registry holds under the key of a
socket with another address or port. -/
theorem registryKey_disambiguates :
    (∀ (a b : String) (p q : Nat), registryKey a p = registryKey b q → a = b ∧ p = q) ∧
    (∀ c d : Conn, differentPeer c d → connKey c ≠ connKey d) ∧
    (∀ (c d : Conn) (w : World), differentPeer c d →
      (onConnection c w).openConnections.get (connKey d) = w.openConnections.get (connKey d) ∧
      (onConnClose c w).openConnections.get (connKey d) = w.openConnections.get (connKey d)) := by
  refine ⟨registryKey_inj, fun c d h => connKey_ne h, ?_⟩
  intro c d w h
  exact ⟨Registry.get_assign_ne _ _ _ _ (connKey_ne h), Registry.get_delete_ne _ _ _ (connKey_ne h)⟩

theorem runCallback_closeCallbacks (cb : Callback) (w : World) :
    (runCallback cb w).closeCallbacks = w.closeCallbacks := by
  cases cb <;> rfl

theorem listenerClosed_closeCallbacks (w : World) : (listenerClosed w).closeCallbacks = [] := by
  unfold listenerClosed
  generalize hw0 : ({ w with closeCallbacks := [] } : World) = w0
  have h0 : w0.closeCallbacks = [] := by rw [← hw0]
  clear hw0
  generalize w.closeCallbacks = cbs
  induction cbs generalizing w0 with
  | nil => exact h0
  | cons cb rest ih =>
    simp only [List.foldl_cons]
    exact ih _ (by rw [runCallback_closeCallbacks, h0])

/-- C6: after any well-formed sequence of socket events in which no two open
sockets share remote address and port, `WIKI.server.destroy(cb)` first calls
`close(cb)`, once, and then `destroy()` once on each socket that was opened
and has not closed, and on nothing else; it hands `cb` to `close` and runs no
callback and starts no timer itself, and once the listener has closed and
called it, the callback is not kept. -/
theorem serverDestroy_closes_then_destroys (evs : List ConnEvent) (w : World) (cb : Callback)
    (hwf : wellFormed [] evs = true) (hreg : w.openConnections = []) :
    (serverDestroy cb (replay evs w)).trace =
      w.trace ++ .serverClose cb :: (liveAfter [] evs).map Event.connDestroy ∧
    (liveAfter [] evs).Nodup ∧
    (serverDestroy cb (replay evs w)).closeCallbacks = w.closeCallbacks ++ [cb] ∧
    (serverDestroy cb (replay evs w)).timers = w.timers ∧
    (listenerClosed (serverDestroy cb (replay evs w))).closeCallbacks = [] := by
  obtain ⟨hopen, hpair⟩ := replay_registry evs [] w hwf (by rw [hreg]; rfl) List.Pairwise.nil
  obtain ⟨htrace, hcbs, htimers⟩ := replay_trace evs w
  rw [serverDestroy_eq]
  refine ⟨?_, ?_, ?_, htimers, listenerClosed_closeCallbacks _⟩
  · simp [hopen, htrace, entriesOf, Function.comp]
  · exact List.Pairwise.imp
      (fun {c d} (h : differentPeer c d) (hcd : c = d) => h (by rw [hcd]; exact ⟨rfl, rfl⟩)) hpair
  · simp [hcbs]

theorem serverDestroy_closes_then_destroys_witness :
    (serverDestroy .stopCompletion (replay socketEvents freshWorld)).trace =
      [.serverClose .stopCompletion, .connDestroy socketB, .connDestroy socketC] :=
  (serverDestroy_closes_then_destroys socketEvents freshWorld .stopCompletion
    (by decide) rfl).1

/-! ## The error handler -/

/-- C9: the `error` handler ends in `process.exit(1)` exactly when the error's
syscall is `listen` and its code is `EACCES` or `EADDRINUSE`; for every other
error it throws the error object it was given and does not exit. -/
theorem onError_exits_iff (port : String) (error : ServerError) :
    ((∃ logged status, onError port error = .exited logged status) ↔
      (error.syscall = some "listen" ∧
        (error.code = some "EACCES" ∨ error.code = some "EADDRINUSE"))) ∧
    ((error.syscall = some "listen" ∧
        (error.code = some "EACCES" ∨ error.code = some "EADDRINUSE")) →
      ∃ logged, onError port error = .exited logged 1) ∧
    (¬ (error.syscall = some "listen" ∧
        (error.code = some "EACCES" ∨ error.code = some "EADDRINUSE")) →
      onError port error = .thrown error) := by
  unfold onError
  by_cases h1 : error.syscall = some "listen"
  · by_cases h2 : error.code = some "EACCES"
    · simp [h1, h2]
    · by_cases h3 : error.code = some "EADDRINUSE"
      · simp [h1, h2, h3]
      · simp [h1, h2, h3]
  · simp [h1]

/-! ## Running statements -/

theorem exec_append (xs ys : List Step) (w : World) :
    exec (xs ++ ys) w =
      match exec xs w with
      | .ok w1 => exec ys w1
      | .threw message w1 => .threw message w1 := by
  induction xs generalizing w with
  | nil => rfl
  | cons s rest ih =>
    simp only [List.cons_append, exec]
    cases s w with
    | ok w1 => exact ih w1
    | threw m w1 => rfl

theorem exec_keeps {α : Type} (f : World → α) (steps : List Step)
    (h : ∀ s ∈ steps, Step.keeps f s) : Step.keeps f (exec steps) := by
  induction steps with
  | nil => intro w; rfl
  | cons s rest ih =>
    intro w
    have hs := h s (List.mem_cons_self _ _) w
    have hrest := ih (fun t ht => h t (List.mem_cons_of_mem _ ht))
    simp only [exec]
    cases hsw : s w with
    | ok w1 =>
      rw [hsw] at hs
      simp only [Outcome.world] at hs
      rw [← hs]
      exact hrest w1
    | threw m w1 =>
      rw [hsw] at hs
      exact hs

theorem Config.get_set_eq (cfg : Config) (key : String) (value : JsVal) :
    (cfg.set key value).get key = value := by
  induction cfg with
  | nil => simp [Config.set, Config.get]
  | cons e rest ih =>
    obtain ⟨k, v⟩ := e
    simp only [Config.set]
    split_ifs with h
    · simp [Config.get]
    · simp [Config.get, h, ih]

theorem Config.get_set_ne (cfg : Config) (key other : String) (value : JsVal) (h : key ≠ other) :
    (cfg.set key value).get other = cfg.get other := by
  induction cfg with
  | nil => simp [Config.set, Config.get, h]
  | cons e rest ih =>
    obtain ⟨k, v⟩ := e
    simp only [Config.set]
    split_ifs with hk
    · subst hk; simp [Config.get, h]
    · by_cases hko : k = other
      · simp [Config.get, hko]
      · simp [Config.get, hko, ih]

theorem upgradeSteps_keeps_frame (env : Env) (req : Body) :
    ∀ s ∈ upgradeSteps env req, Step.keeps World.frame s := by
  intro s hs
  unfold upgradeSteps at hs
  split at hs
  · rw [List.mem_singleton] at hs
    subst hs
    intro w
    simp only [withHelper, call]
    repeat' split
    all_goals
      simp [Outcome.world, World.emit, World.frame, List.filter_append, Event.isHandoff]
  · simp at hs

theorem bootstrapSteps_keep_frame (env : Env) (req : Body) :
    ∀ s ∈ bootstrapSteps env req, Step.keeps World.frame s := by
  unfold bootstrapSteps assemblySteps directorySteps configSteps certificateSteps persistSteps
    seedSteps
  simp only [List.forall_mem_append, List.forall_mem_cons, List.forall_mem_singleton,
    List.not_mem_nil, false_implies, implies_true, and_true]
  refine ⟨⟨⟨⟨⟨⟨?_, upgradeSteps_keeps_frame env req⟩, ?_⟩, ?_⟩, ?_⟩, ?_⟩, ?_⟩
  · intro w
    simp only [versionCheck]
    split <;> rfl
  all_goals
    repeat' apply And.intro
    all_goals
      intro w
      simp only [call, withHelper, loggerInfo, setConfig, drawSessionSecret, generateCertificates,
        setCerts, saveConfig, insertGroup, deleteUsers, insertUser, relateUser]
      repeat' split
      all_goals
        simp [Outcome.world, World.emit, World.configSet, World.frame, List.filter_append,
          Event.isHandoff, Config.get_set_ne]

theorem upgradeSteps_throwClean (env : Env) (req : Body) :
    ∀ s ∈ upgradeSteps env req, Step.throwsClean s := by
  intro s hs
  unfold upgradeSteps at hs
  split at hs
  · rw [List.mem_singleton] at hs
    subst hs
    intro w m w1 h
    simp only [withHelper, call] at h
    repeat' split at h
    all_goals
      first
      | (simp only [Outcome.threw.injEq] at h; rw [← h.2]; exact ⟨rfl, rfl⟩)
      | simp at h
  · simp at hs

theorem bootstrapSteps_throwClean (env : Env) (req : Body) :
    ∀ s ∈ bootstrapSteps env req, Step.throwsClean s := by
  unfold bootstrapSteps assemblySteps directorySteps configSteps certificateSteps persistSteps
    seedSteps
  simp only [List.forall_mem_append, List.forall_mem_cons, List.forall_mem_singleton,
    List.not_mem_nil, false_implies, implies_true, and_true]
  refine ⟨⟨⟨⟨⟨⟨?_, upgradeSteps_throwClean env req⟩, ?_⟩, ?_⟩, ?_⟩, ?_⟩, ?_⟩
  · intro w m w1 h
    simp only [versionCheck] at h
    split at h
    · simp at h
    · simp only [Outcome.threw.injEq] at h
      rw [← h.2]
      exact ⟨rfl, rfl⟩
  all_goals
    repeat' apply And.intro
    all_goals
      intro w m w1 h
      simp only [call, withHelper, loggerInfo, setConfig, drawSessionSecret, generateCertificates,
        setCerts, saveConfig, insertGroup, deleteUsers, insertUser, relateUser] at h
      repeat' split at h
      all_goals
        first
        | (simp only [Outcome.threw.injEq] at h; rw [← h.2]; exact ⟨rfl, rfl⟩)
        | simp at h

/-! ## Failure of a statement -/

theorem enterHandler_frame (w : World) : (enterHandler w).frame = w.frame := by
  simp [enterHandler, World.emit, World.frame, List.filter_append, Event.isHandoff]

theorem catchClause_frame (message : String) (w : World) :
    (catchClause message w).frame =
      { w.frame with handoff := w.frame.handoff ++ [.resJson (failureBody message)] } := by
  simp [catchClause, World.emit, World.frame, List.filter_append, Event.isHandoff]

/-- C1: whichever statement before the response throws, with whatever
message, once the statements before it have returned: the handler ends in
the world of the throw with the one response `{ok: false, error: message}`
added, so no later statement has run; the throwing statement has changed
neither store nor configuration, so what the earlier statements did stays;
the only handoff event of the run is that response, `WIKI.config.setup` is
as before, and the listener, its sockets and the timers are untouched. -/
theorem finalize_step_failure (env : Env) (req : Body) (w : World) (k : Nat) (s : Step)
    (message : String) (before failed : World)
    (hk : (bootstrapSteps env req)[k]? = some s)
    (hbefore : exec ((bootstrapSteps env req).take k) (enterHandler w) = .ok before)
    (hthrow : s before = .threw message failed) :
    finalize env req w =
      { failed with trace := failed.trace ++
          [.resJson (.obj [("ok", .bool false), ("error", .str message)])] } ∧
    failed.db = before.db ∧ failed.config = before.config ∧
    (finalize env req w).trace.filter Event.isHandoff =
      w.trace.filter Event.isHandoff ++
        [.resJson (.obj [("ok", .bool false), ("error", .str message)])] ∧
    (finalize env req w).config.get "setup" = w.config.get "setup" ∧
    (finalize env req w).openConnections = w.openConnections ∧
    (finalize env req w).closeCallbacks = w.closeCallbacks ∧
    (finalize env req w).timers = w.timers := by
  have hlt : k < (bootstrapSteps env req).length := by
    by_contra hge
    rw [List.getElem?_eq_none (by omega)] at hk
    exact Option.noConfusion hk
  have hget : (bootstrapSteps env req)[k] = s := by
    rw [List.getElem?_eq_getElem hlt] at hk
    exact Option.some.inj hk
  have hmem : s ∈ bootstrapSteps env req := hget ▸ List.getElem_mem hlt
  have hsplit : bootstrapSteps env req =
      (bootstrapSteps env req).take k ++ s :: (bootstrapSteps env req).drop (k + 1) := by
    rw [← hget, ← List.drop_eq_getElem_cons hlt, List.take_append_drop]
  have hrun : exec (tryBlock env req) (enterHandler w) = .threw message failed := by
    unfold tryBlock
    rw [hsplit, List.append_assoc, exec_append, hbefore]
    simp only [List.cons_append, exec, hthrow]
  have hfin : finalize env req w = catchClause message failed := by
    unfold finalize
    rw [hrun]
  have hclean := bootstrapSteps_throwClean env req s hmem before message failed hthrow
  have hframe1 : before.frame = w.frame := by
    have := exec_keeps World.frame ((bootstrapSteps env req).take k)
      (fun t ht => bootstrapSteps_keep_frame env req t (List.mem_of_mem_take ht)) (enterHandler w)
    rw [hbefore] at this
    simpa [Outcome.world, enterHandler_frame] using this
  have hframe2 : failed.frame = w.frame := by
    have := bootstrapSteps_keep_frame env req s hmem before
    rw [hthrow] at this
    simpa [Outcome.world, hframe1] using this
  have hframe3 := catchClause_frame message failed
  rw [hframe2] at hframe3
  rw [hfin]
  refine ⟨rfl, hclean.1, hclean.2, ?_, ?_, ?_, ?_, ?_⟩
  · exact congrArg Frame.handoff hframe3
  · exact congrArg Frame.setup hframe3
  · exact congrArg Frame.openConnections hframe3
  · exact congrArg Frame.closeCallbacks hframe3
  · exact congrArg Frame.timers hframe3

theorem finalize_step_failure_witness :
    (finalize (failingAt .relateGuestUser "relation failed") scenarioBody freshWorld).trace.filter
        Event.isHandoff =
      [.resJson (.obj [("ok", .bool false), ("error", .str "relation failed")])] ∧
    (finalize (failingAt .relateGuestUser "relation failed") scenarioBody freshWorld).db.users.map
        (fun u => u.fields.email) = ["a@x.com", "guest@example.com"] :=
  have h := finalize_step_failure (failingAt .relateGuestUser "relation failed") scenarioBody
    freshWorld 45
    (relateUser (failingAt .relateGuestUser "relation failed") .relateGuestUser
      (fun l => l.guestUser) (fun l => l.guestGroup))
    "relation failed"
    (exec ((bootstrapSteps (failingAt .relateGuestUser "relation failed") scenarioBody).take 45)
      (enterHandler freshWorld)).world
    ((exec ((bootstrapSteps (failingAt .relateGuestUser "relation failed") scenarioBody).take 45)
      (enterHandler freshWorld)).world.emit (.relateGroups 2 2))
    rfl rfl rfl
  ⟨h.2.2.2.1, by rw [h.1]; rfl⟩

/-- C2: when the version does not satisfy `>=10.14`, the handler sends the
telemetry event and the response `{ok: false, error: 'Node.js 10.14.x or
later required!'}` and does nothing else: no collaborator is called, and the
configuration, the store, the registry, the listener and the timers are as
they were. -/
theorem finalize_version_guard (env : Env) (req : Body) (w : World)
    (hv : env.versionSatisfies = false) :
    (finalize env req w).trace =
      w.trace ++ [.telemetrySendEvent "setup" "finalize",
        .resJson (.obj [("ok", .bool false),
          ("error", .str "Node.js 10.14.x or later required!")])] ∧
    (finalize env req w).config = w.config ∧
    (finalize env req w).db = w.db ∧
    (finalize env req w).openConnections = w.openConnections ∧
    (finalize env req w).closeCallbacks = w.closeCallbacks ∧
    (finalize env req w).timers = w.timers := by
  simp [finalize, tryBlock, bootstrapSteps, assemblySteps, exec, versionCheck, hv, catchClause,
    failureBody, enterHandler, World.emit]

theorem finalize_version_guard_witness :
    (finalize { calmEnv with versionSatisfies := false } scenarioBody freshWorld).trace =
      [.telemetrySendEvent "setup" "finalize",
        .resJson (.obj [("ok", .bool false),
          ("error", .str "Node.js 10.14.x or later required!")])] :=
  (finalize_version_guard { calmEnv with versionSatisfies := false } scenarioBody freshWorld
    rfl).1

/-! ## A run in which nothing throws -/

theorem exec_version_calm (env : Env) (w : World) (hv : env.versionSatisfies = true) :
    exec [versionCheck env] w = .ok w := by
  simp [exec, versionCheck, hv]

theorem exec_upgrade_calm (env : Env) (req : Body) (w : World)
    (hc : ∀ site, site ∉ lateSites → env.throws site = none) :
    exec (upgradeSteps env req) w = .ok { w with trace := w.trace ++ upgradeEvents env req } := by
  cases hu : req.upgrade.truthy <;>
    simp [upgradeSteps, upgradeEvents, hu, exec, call, withHelper, World.emit,
      hc .parseConfigValue (by decide), hc .upgradeFromMongo (by decide)]

theorem exec_directory_calm (env : Env) (w : World)
    (hc : ∀ site, site ∉ lateSites → env.throws site = none) :
    exec (directorySteps env) w = .ok { w with trace := w.trace ++ directoryEvents env } := by
  simp [directorySteps, directoryEvents, exec, call, withHelper, loggerInfo, World.emit,
    hc .dataPath (by decide), hc .ensureDataDir (by decide), hc .emptyCacheDir (by decide),
    hc .ensureUploadsDir (by decide)]

theorem exec_config_calm (env : Env) (req : Body) (w : World)
    (hc : ∀ site, site ∉ lateSites → env.throws site = none) :
    exec (configSteps env req) w =
      .ok { w with config := draftConfig env req w.config,
                   trace := w.trace ++ sectionEvents env req } := by
  simp [configSteps, sectionEvents, exec, call, hc .randomBytes (by decide), setConfig,
    drawSessionSecret, World.emit,
    World.configSet, draftConfig, draftSections]

theorem draftConfig_sessionSecret (env : Env) (req : Body) (cfg : Config) :
    (draftConfig env req cfg).get "sessionSecret" = sessionSecret env := by
  simp only [draftConfig, draftSections, List.foldl_cons, List.foldl_nil]
  rw [Config.get_set_ne _ _ _ _ (by decide), Config.get_set_ne _ _ _ _ (by decide),
    Config.get_set_ne _ _ _ _ (by decide), Config.get_set_eq]

theorem exec_certificate_calm (env : Env) (w : World)
    (hc : ∀ site, site ∉ lateSites → env.throws site = none) :
    exec (certificateSteps env) w =
      .ok { w with
        config := w.config.set "certs"
          (certsConfig env (env.generateKeyPair (w.config.get "sessionSecret"))),
        locals := { w.locals with
          certs := some (env.generateKeyPair (w.config.get "sessionSecret")) },
        trace := w.trace ++
          [ .loggerInfo "Generating certificates...",
            .generateKeyPairSync "rsa" 2048 "aes-256-cbc" (w.config.get "sessionSecret"),
            .configSet "certs"
              (certsConfig env (env.generateKeyPair (w.config.get "sessionSecret"))) ] } := by
  simp [certificateSteps, exec, call, withHelper, hc .generateKeyPair (by decide),
    hc .pem2jwk (by decide), loggerInfo, generateCertificates, setCerts,
    World.emit, World.configSet]

theorem exec_persist_calm (env : Env) (w : World)
    (hc : ∀ site, site ∉ lateSites → env.throws site = none) :
    exec (persistSteps env) w =
      .ok { w with trace := w.trace ++
        [ .loggerInfo "Persisting config to DB...",
          .saveToDb (savedSections.map (fun key => (key, w.config.get key))) ] } := by
  simp [persistSteps, exec, call, hc .saveToDb (by decide), loggerInfo, saveConfig, World.emit]

theorem exec_seed_calm (env : Env) (req : Body) (w : World)
    (hc : ∀ site, env.throws site = none) :
    exec (seedSteps env req) w =
      .ok { w with
        db := seededStore env req w.db,
        locals := { w.locals with
          adminGroup := some ⟨w.db.nextGroupId, adminGroupFields⟩,
          guestGroup := some ⟨w.db.nextGroupId + 1, guestGroupFields⟩,
          adminUser := some ⟨w.db.nextUserId, adminUserFields req⟩,
          guestUser := some ⟨w.db.nextUserId + 1, guestUserFields⟩ },
        trace := w.trace ++ seedEvents env req w.db.nextUserId w.db.nextGroupId } := by
  simp [seedSteps, exec, call, withHelper, hc, loggerInfo, insertGroup, deleteUsers, insertUser,
    relateUser, World.emit, Store.insertLocale, Store.insertGroup, Store.deleteUsers, Store.insertUser,
    Store.relate, Store.deleteNavigation, Store.insertNavigation, seededStore, seedEvents]

theorem exec_handoff (w : World) :
    exec handoffSteps w =
      .ok { w with
        config := w.config.set "setup" (.bool false),
        closeCallbacks := w.closeCallbacks ++ [.stopCompletion],
        trace := w.trace ++ handoffEvents (w.config.get "port") w.openConnections } := by
  simp [handoffSteps, handoffEvents, exec, loggerInfo, World.emit, World.configSet,
    serverDestroy_eq, successBody]

theorem assembledConfig_get_other (env : Env) (req : Body) (cfg : Config) (key : String)
    (h : key ∉ savedSections) :
    (assembledConfig env req cfg).get key = cfg.get key := by
  simp only [savedSections, List.mem_cons, List.mem_singleton, List.not_mem_nil, or_false,
    not_or] at h
  obtain ⟨h1, h2, h3, h4, h5, h6, h7, h8, h9, h10, h11, h12, h13, h14⟩ := h
  simp only [assembledConfig, draftConfig, draftSections, List.foldl_cons, List.foldl_nil]
  repeat rw [Config.get_set_ne _ _ _ _ (Ne.symm (by assumption))]

theorem assembledConfig_saved (env : Env) (req : Body) (cfg : Config) :
    savedSections.map (fun key => (key, (assembledConfig env req cfg).get key)) =
      persistedSections env req := by
  simp [savedSections, persistedSections, assembledConfig, draftConfig, draftSections,
    Config.get_set_eq, Config.get_set_ne]

theorem finalize_calm (env : Env) (req : Body) (w : World) (hv : env.versionSatisfies = true)
    (hc : ∀ site, env.throws site = none) :
    finalize env req w =
      { config := (assembledConfig env req w.config).set "setup" (.bool false),
        db := seededStore env req w.db,
        openConnections := w.openConnections,
        closeCallbacks := w.closeCallbacks ++ [.stopCompletion],
        timers := w.timers,
        locals :=
          { certs := some (env.generateKeyPair (sessionSecret env)),
            adminGroup := some ⟨w.db.nextGroupId, adminGroupFields⟩,
            guestGroup := some ⟨w.db.nextGroupId + 1, guestGroupFields⟩,
            adminUser := some ⟨w.db.nextUserId, adminUserFields req⟩,
            guestUser := some ⟨w.db.nextUserId + 1, guestUserFields⟩ },
        trace := w.trace ++ .telemetrySendEvent "setup" "finalize" ::
          (upgradeEvents env req ++ directoryEvents env ++ sectionEvents env req ++
            certificateEvents env ++ persistEvents env req ++
            seedEvents env req w.db.nextUserId w.db.nextGroupId ++
            handoffEvents (w.config.get "port") w.openConnections) } := by
  have hearly : ∀ site, site ∉ lateSites → env.throws site = none := fun site _ => hc site
  simp only [finalize, tryBlock, bootstrapSteps, assemblySteps, exec_append,
    exec_version_calm env _ hv, exec_upgrade_calm env req _ hearly,
    exec_directory_calm env _ hearly, exec_config_calm env req _ hearly,
    exec_certificate_calm env _ hearly, draftConfig_sessionSecret]
  have hcfg : ∀ cfg : Config, (draftConfig env req cfg).set "certs"
      (certsConfig env (env.generateKeyPair (sessionSecret env))) = assembledConfig env req cfg :=
    fun cfg => rfl
  simp only [exec_persist_calm env _ hearly, exec_seed_calm env req _ hc, exec_handoff, hcfg,
    assembledConfig_saved]
  have hport : (assembledConfig env req (enterHandler w).config).get "port" = w.config.get "port" :=
    assembledConfig_get_other env req _ "port" (by decide)
  simp only [hport]
  simp [enterHandler, World.emit, noLocals, persistEvents, certificateEvents]

/-! ## The successful run -/

theorem since_append (w w1 : World) (evs : List Event) (h : w1.trace = w.trace ++ evs) :
    w1.since w = evs := by
  simp [World.since, h]

theorem filter_destroys (keep : Event → Bool) (h : ∀ conn, keep (.connDestroy conn) = true)
    (reg : Registry) :
    (reg.map (fun e => Event.connDestroy e.2)).filter keep =
      reg.map (fun e => Event.connDestroy e.2) := by
  rw [List.filter_eq_self]
  intro ev hev
  obtain ⟨e, _, rfl⟩ := List.mem_map.mp hev
  exact h e.2

/-- C3: when the version check passes and no call throws, on a system with
no pending close callback and no timer, the handoff events of the run are, in
this order, the one response `{ok: true, redirectPath: '/', redirectPort:
WIKI.config.port}` with its end, the assignment `WIKI.config.setup = false`,
the one `close` of `WIKI.server.destroy`, and the destruction of the open
sockets; the handler itself starts no timer and calls no `bootMaster`; the
stop-completion callback, when the listener has closed, starts exactly one
timer of 1000 ms, and `bootMaster` is called once, when that timer expires,
and not when timers expire before the callback has run. -/
theorem finalize_success_handoff (env : Env) (req : Body) (w : World)
    (hv : env.versionSatisfies = true) (hc : ∀ site, env.throws site = none)
    (hcb : w.closeCallbacks = []) (ht : w.timers = []) :
    ((finalize env req w).since w).filter Event.isHandoff =
      ([ .resJson (.obj [("ok", .bool true), ("redirectPath", .str "/"),
           ("redirectPort", w.config.get "port")]),
         .resEnd,
         .configSet "setup" (.bool false),
         .serverClose .stopCompletion ] : List Event) ++
        w.openConnections.map (fun e => Event.connDestroy e.2) ∧
    (finalize env req w).config.get "setup" = .bool false ∧
    (finalize env req w).timers = [] ∧
    (finalize env req w).closeCallbacks = [.stopCompletion] ∧
    (timersExpired (finalize env req w)).trace = (finalize env req w).trace ∧
    (listenerClosed (finalize env req w)).timers = [(.bootMaster, 1000)] ∧
    (listenerClosed (finalize env req w)).trace = (finalize env req w).trace ++
      [.loggerInfo "Setup stopped. Starting Wiki.js...", .delay .bootMaster 1000] ∧
    (timersExpired (listenerClosed (finalize env req w))).trace =
      (listenerClosed (finalize env req w)).trace ++ [.kernelBootMaster] := by
  have hfin := finalize_calm env req w hv hc
  have htrace := since_append w _ _ (congrArg World.trace hfin)
  refine ⟨?_, ?_, ?_, ?_, ?_, ?_, ?_, ?_⟩
  · rw [htrace]
    cases hu : req.upgrade.truthy <;>
      simp [upgradeEvents, hu, directoryEvents, sectionEvents, certificateEvents, persistEvents,
        seedEvents, handoffEvents, List.filter_append, List.filter_cons,
        filter_destroys Event.isHandoff (fun _ => rfl), Event.isHandoff]
  · rw [hfin]
    exact Config.get_set_eq _ _ _
  · rw [hfin]
    exact ht
  · rw [hfin]
    simp [hcb]
  · rw [hfin]
    simp [timersExpired, ht]
  · rw [hfin]
    simp [listenerClosed, hcb, ht, runCallback, World.emit]
  · rw [hfin]
    simp [listenerClosed, hcb, runCallback, World.emit]
  · rw [hfin]
    simp [listenerClosed, hcb, ht, runCallback, World.emit, timersExpired, runTimerAction]

theorem finalize_success_handoff_witness :
    ((finalize calmEnv scenarioBody freshWorld).since freshWorld).filter Event.isHandoff =
      [ .resJson (.obj [("ok", .bool true), ("redirectPath", .str "/"),
          ("redirectPort", .num 3000)]),
        .resEnd,
        .configSet "setup" (.bool false),
        .serverClose .stopCompletion ] :=
  (finalize_success_handoff calmEnv scenarioBody freshWorld rfl (fun _ => rfl) rfl rfl).1

/-- C7: when the version check passes and no call throws, the calls to
collaborators occur in exactly this order: the legacy import if and only if
`req.body.upgrade` is truthy, the three directory calls, the draw of 32 random
bytes, the key pair whose passphrase is the hexadecimal text of those bytes,
one `saveToDb` whose fourteen sections hold that text as `sessionSecret`, the
locale, the two groups, the registry refreshes with the patches of `local`,
`markdown` and `db`, delete, insert and relate of the administrator with the
id of the Administrators group, the same for the guest with the id of the
Guests group, delete and insert of the site navigation, and the success
response, which the stop of the listener follows; the text of the drawn bytes
is also what `WIKI.config.sessionSecret` holds. -/
theorem finalize_effect_order (env : Env) (req : Body) (w : World)
    (hv : env.versionSatisfies = true) (hc : ∀ site, env.throws site = none) :
    ((finalize env req w).since w).filter Event.isEffect =
      (if req.upgrade.truthy then
        [Event.upgradeFromMongo (.obj [("mongoCnStr", env.parseConfigValue req.upgMongo)])]
       else []) ++
      ([
         .ensureDir (env.cwd ++ ["data"]),
         .emptyDir (env.cwd ++ ["data"] ++ ["cache"]),
         .ensureDir (env.cwd ++ ["data"] ++ ["uploads"]),
         .randomBytesAsync 32,
         .generateKeyPairSync "rsa" 2048 "aes-256-cbc" (.str (toHex (env.randomBytes 32))),
         .saveToDb (persistedSections env req),
         .localesInsert { code := "en", strings := [], isRTL := false, name := "English", nativeName := "English" },
         .groupsInsert { name := "Administrators", permissions := ["manage:system"], pageRules := [], isSystem := true },
         .groupsInsert { name := "Guests", permissions := ["read:pages", "read:assets", "read:comments"], pageRules := [{ id := "guest", roles := ["read:pages", "read:assets", "read:comments"], matchKind := "START", deny := false, path := "", locales := [] }], isSystem := true },
         .refreshStrategiesFromDisk,
         .authenticationPatch true "local",
         .refreshEditorsFromDisk,
         .editorsPatch true "markdown",
         .refreshLoggersFromDisk,
         .refreshRenderersFromDisk,
         .refreshSearchEnginesFromDisk,
         .searchEnginesPatch true "db",
         .refreshTargetsFromDisk,
         .usersDelete { providerKey := "local", email := req.adminEmail },
         .usersInsert { email := req.adminEmail, provider := "local", password := req.adminPassword, name := "Administrator", locale := "en", defaultEditor := "markdown", tfaIsActive := false, isSystem := none, isActive := true, isVerified := true },
         .relateGroups w.db.nextUserId w.db.nextGroupId,
         .usersDelete { providerKey := "local", email := "guest@example.com" },
         .usersInsert { email := "guest@example.com", provider := "local", password := "", name := "Guest", locale := "en", defaultEditor := "markdown", tfaIsActive := false, isSystem := some true, isActive := true, isVerified := true },
         .relateGroups (w.db.nextUserId + 1) (w.db.nextGroupId + 1),
         .navigationDelete "site",
         .navigationInsert { key := "site", config := [{ id := env.uuid, icon := "home", kind := "link", label := "Home", target := "/", targetType := "home" }] },
         .resJson (.obj [("ok", .bool true), ("redirectPath", .str "/"),
             ("redirectPort", w.config.get "port")]),
         .serverClose .stopCompletion ] : List Event) ++
        w.openConnections.map (fun e => Event.connDestroy e.2) ∧
    (persistedSections env req).map Prod.fst =
      ["auth", "certs", "company", "features", "graphEndpoint", "host", "lang", "logo", "mail",
       "seo", "sessionSecret", "telemetry", "theming", "title"] ∧
    (∀ value, ("sessionSecret", value) ∈ persistedSections env req ↔
      value = .str (toHex (env.randomBytes 32))) ∧
    (finalize env req w).config.get "sessionSecret" = .str (toHex (env.randomBytes 32)) ∧
    (finalize env req w).db.groups = w.db.groups ++
      [ { id := w.db.nextGroupId, fields := { name := "Administrators", permissions := ["manage:system"], pageRules := [], isSystem := true } },
        { id := w.db.nextGroupId + 1, fields := { name := "Guests", permissions := ["read:pages", "read:assets", "read:comments"], pageRules := [{ id := "guest", roles := ["read:pages", "read:assets", "read:comments"], matchKind := "START", deny := false, path := "", locales := [] }], isSystem := true } } ] := by
  have hfin := finalize_calm env req w hv hc
  have htrace := since_append w _ _ (congrArg World.trace hfin)
  refine ⟨?_, ?_, ?_, ?_, ?_⟩
  · rw [htrace]
    cases hu : req.upgrade.truthy <;>
      simp [upgradeEvents, hu, directoryEvents, sectionEvents, certificateEvents, persistEvents,
        seedEvents, handoffEvents, List.filter_append, List.filter_cons,
        filter_destroys Event.isEffect (fun _ => rfl), Event.isEffect, upgradeOptions, dataPath,
        sessionSecret, defaultLocale, adminGroupFields, guestGroupFields, adminFilter,
        adminUserFields, guestFilter, guestUserFields, siteNavigation]
  · rfl
  · intro value
    simp [persistedSections, sessionSecret]
  · rw [hfin]
    show ((assembledConfig env req w.config).set "setup" (.bool false)).get "sessionSecret" = _
    rw [Config.get_set_ne _ _ _ _ (by decide)]
    simp only [assembledConfig]
    rw [Config.get_set_ne _ _ _ _ (by decide), draftConfig_sessionSecret]
    rfl
  · rw [hfin]
    rfl

theorem finalize_effect_order_witness :
    ((finalize calmEnv scenarioBody freshWorld).since freshWorld).filter Event.isEffect =
      [
        .ensureDir (["srv", "wiki", "data"]),
        .emptyDir (["srv", "wiki", "data", "cache"]),
        .ensureDir (["srv", "wiki", "data", "uploads"]),
        .randomBytesAsync 32,
        .generateKeyPairSync "rsa" 2048 "aes-256-cbc" (.str "abababababababababababababababababababababababababababababababab"),
        .saveToDb (persistedSections calmEnv scenarioBody),
        .localesInsert { code := "en", strings := [], isRTL := false, name := "English", nativeName := "English" },
        .groupsInsert { name := "Administrators", permissions := ["manage:system"], pageRules := [], isSystem := true },
        .groupsInsert { name := "Guests", permissions := ["read:pages", "read:assets", "read:comments"], pageRules := [{ id := "guest", roles := ["read:pages", "read:assets", "read:comments"], matchKind := "START", deny := false, path := "", locales := [] }], isSystem := true },
        .refreshStrategiesFromDisk,
        .authenticationPatch true "local",
        .refreshEditorsFromDisk,
        .editorsPatch true "markdown",
        .refreshLoggersFromDisk,
        .refreshRenderersFromDisk,
        .refreshSearchEnginesFromDisk,
        .searchEnginesPatch true "db",
        .refreshTargetsFromDisk,
        .usersDelete { providerKey := "local", email := "a@x.com" },
        .usersInsert { email := "a@x.com", provider := "local", password := "secret", name := "Administrator", locale := "en", defaultEditor := "markdown", tfaIsActive := false, isSystem := none, isActive := true, isVerified := true },
        .relateGroups 1 1,
        .usersDelete { providerKey := "local", email := "guest@example.com" },
        .usersInsert { email := "guest@example.com", provider := "local", password := "", name := "Guest", locale := "en", defaultEditor := "markdown", tfaIsActive := false, isSystem := some true, isActive := true, isVerified := true },
        .relateGroups 2 2,
        .navigationDelete "site",
        .navigationInsert { key := "site", config := [{ id := "u-1", icon := "home", kind := "link", label := "Home", target := "/", targetType := "home" }] },
        .resJson (.obj [("ok", .bool true), ("redirectPath", .str "/"),
            ("redirectPort", .num 3000)]),
        .serverClose .stopCompletion ] :=
  (finalize_effect_order calmEnv scenarioBody freshWorld rfl (fun _ => rfl)).1

/-! ## The seed records -/

theorem selects_iff (filter : UserWhere) (row : UserRow) :
    filter.selects row = true ↔
      row.fields.provider = filter.providerKey ∧ row.fields.email = filter.email := by
  simp [UserWhere.selects]

theorem seededStore_users_of_empty (env : Env) (req : Body) (db : Store) (hdb : db.users = [])
    (hne : req.adminEmail ≠ "guest@example.com") :
    (seededStore env req db).users =
      [⟨db.nextUserId, adminUserFields req⟩, ⟨db.nextUserId + 1, guestUserFields⟩] := by
  simp [seededStore, hdb, UserWhere.selects, guestFilter, adminUserFields, hne]

/-- C4, amended: for every setup payload whose administrator email is not
`guest@example.com`, a run in which nothing throws, on a store without
records, leaves one locale `en`, the groups Administrators and Guests with
their permission sets and page rules, exactly two accounts, one administrator
account with the payload's email related to the Administrators group and one
guest account `guest@example.com` with the empty password, active, related to
the Guests group, and one navigation record `site` with one Home link to
`/`. -/
theorem seeded_records_amended (env : Env) (req : Body) (w : World)
    (hv : env.versionSatisfies = true) (hc : ∀ site, env.throws site = none)
    (hempty : w.db.hasNoRecords) (hne : req.adminEmail ≠ "guest@example.com") :
    (finalize env req w).db.seededFor req.adminEmail := by
  obtain ⟨h1, h2, h3, h4, h5⟩ := hempty
  rw [finalize_calm env req w hv hc]
  show (seededStore env req w.db).seededFor req.adminEmail
  have husers := seededStore_users_of_empty env req w.db h3 hne
  have hgroups : (seededStore env req w.db).groups =
      [⟨w.db.nextGroupId, adminGroupFields⟩, ⟨w.db.nextGroupId + 1, guestGroupFields⟩] := by
    simp [seededStore, h2]
  have hrel : (seededStore env req w.db).userGroups =
      [(w.db.nextUserId, w.db.nextGroupId), (w.db.nextUserId + 1, w.db.nextGroupId + 1)] := by
    simp [seededStore, h4]
  have hloc : (seededStore env req w.db).locales = [defaultLocale] := by
    simp [seededStore, h1]
  have hnav : (seededStore env req w.db).navigation = [siteNavigation env] := by
    simp [seededStore, h5]
  unfold Store.seededFor Store.membersOf
  rw [husers, hgroups, hrel, hloc, hnav]
  refine ⟨?_, ?_, ?_, ?_, ?_, ?_, ?_⟩
  · rfl
  · rfl
  · rfl
  · rfl
  · simp [adminGroupFields, guestGroupFields, adminUserFields]
  · simp [adminGroupFields, guestGroupFields, guestUserFields]
  · rfl

theorem seeded_records_amended_witness :
    (finalize calmEnv scenarioBody freshWorld).db.seededFor "a@x.com" :=
  seeded_records_amended calmEnv scenarioBody freshWorld rfl (fun _ => rfl)
    ⟨rfl, rfl, rfl, rfl, rfl⟩ (by decide)

/-- C4 as stated fails for the administrator email `guest@example.com`: on
the store without records, with nothing throwing, the delete before the guest
insert removes the administrator just inserted; the only account left is the
guest, and no account is related to the Administrators group. -/
theorem seeded_records_guest_email_counterexample :
    calmEnv.versionSatisfies = true ∧ (∀ site, calmEnv.throws site = none) ∧
    freshWorld.db.hasNoRecords ∧
    ¬ (finalize calmEnv guestEmailBody freshWorld).db.seededFor guestEmailBody.adminEmail ∧
    (finalize calmEnv guestEmailBody freshWorld).db.users = [⟨2, guestUserFields⟩] ∧
    (finalize calmEnv guestEmailBody freshWorld).db.membersOf "Administrators" = [] := by
  refine ⟨rfl, fun _ => rfl, ⟨rfl, rfl, rfl, rfl, rfl⟩, ?_, ?_, ?_⟩
  · decide
  · decide
  · decide

/-! ## Retrying after a failure -/

theorem accounts_after_delete (provider email : String) (l : List UserRow)
    (h : ∀ u ∈ l, ¬ (u.fields.provider = provider ∧ u.fields.email = email)) :
    l.filter (fun u => decide (u.fields.provider = provider ∧ u.fields.email = email)) = [] := by
  rw [List.filter_eq_nil_iff]
  intro u hu
  simpa using h u hu

theorem not_selected_of_mem (filter : UserWhere) (l : List UserRow) (u : UserRow)
    (hu : u ∈ l.filter (fun row => !filter.selects row)) :
    ¬ (u.fields.provider = filter.providerKey ∧ u.fields.email = filter.email) := by
  have h := (List.mem_filter.mp hu).2
  intro hsel
  rw [(selects_iff filter u).mpr hsel] at h
  exact Bool.noConfusion h

theorem accounts_seededStore_guest (env : Env) (req : Body) (db : Store) :
    ((seededStore env req db).accounts "local" "guest@example.com").length = 1 := by
  have h1 := accounts_after_delete "local" "guest@example.com" _
    (fun u hu => not_selected_of_mem guestFilter
      (db.users.filter (fun row => !(adminFilter req).selects row) ++
        [UserRow.mk db.nextUserId (adminUserFields req)]) u hu)
  have h2 : [UserRow.mk (db.nextUserId + 1) guestUserFields].filter
      (fun u => decide (u.fields.provider = "local" ∧ u.fields.email = "guest@example.com")) =
      [UserRow.mk (db.nextUserId + 1) guestUserFields] := by
    simp [guestUserFields]
  unfold Store.accounts seededStore
  rw [List.filter_append, h1, h2]
  rfl

theorem accounts_seededStore_admin (env : Env) (req : Body) (db : Store) :
    ((seededStore env req db).accounts "local" req.adminEmail).length = 1 := by
  by_cases hg : req.adminEmail = "guest@example.com"
  · rw [hg]
    exact accounts_seededStore_guest env req db
  · have hkeep : [UserRow.mk db.nextUserId (adminUserFields req)].filter
        (fun row => !guestFilter.selects row) = [UserRow.mk db.nextUserId (adminUserFields req)] := by
      simp [UserWhere.selects, guestFilter, adminUserFields, hg]
    have h1 := accounts_after_delete "local" req.adminEmail
      ((db.users.filter (fun row => !(adminFilter req).selects row)).filter
        (fun row => !guestFilter.selects row))
      (fun u hu => not_selected_of_mem (adminFilter req) db.users u (List.mem_filter.mp hu).1)
    have h2 : [UserRow.mk db.nextUserId (adminUserFields req)].filter
        (fun u => decide (u.fields.provider = "local" ∧ u.fields.email = req.adminEmail)) =
        [UserRow.mk db.nextUserId (adminUserFields req)] := by
      simp [adminUserFields]
    have h3 : [UserRow.mk (db.nextUserId + 1) guestUserFields].filter
        (fun u => decide (u.fields.provider = "local" ∧ u.fields.email = req.adminEmail)) = [] := by
      have hg2 : ¬ ("guest@example.com" = req.adminEmail) := fun h => hg h.symm
      simp [guestUserFields, hg2]
    unfold Store.accounts seededStore
    rw [List.filter_append, h3, List.filter_append, hkeep, List.filter_append, h1, h2]
    rfl

/-! ## The configuration snapshot -/

theorem filter_destroys_none (reg : Registry) :
    (reg.map (fun e => Event.connDestroy e.2)).filter Event.isConfigEvent = [] := by
  rw [List.filter_eq_nil_iff]
  intro ev hev
  obtain ⟨e, _, rfl⟩ := List.mem_map.mp hev
  simp [Event.isConfigEvent]

theorem upgradeSteps_keep_config (env : Env) (req : Body) :
    ∀ s ∈ upgradeSteps env req,
      Step.keeps (fun w => w.trace.filter Event.isConfigEvent) s := by
  intro s hs
  unfold upgradeSteps at hs
  split at hs
  · rw [List.mem_singleton] at hs
    subst hs
    intro w
    simp only [withHelper, call]
    repeat' split
    all_goals simp [Outcome.world, World.emit, List.filter_append, Event.isConfigEvent]
  · simp at hs

theorem preludeSteps_keep_config (env : Env) (req : Body) :
    ∀ s ∈ [versionCheck env] ++ upgradeSteps env req ++ directorySteps env,
      Step.keeps (fun w => w.trace.filter Event.isConfigEvent) s := by
  unfold directorySteps
  simp only [List.forall_mem_append, List.forall_mem_cons, List.forall_mem_singleton,
    List.not_mem_nil, false_implies, implies_true, and_true]
  refine ⟨⟨?_, upgradeSteps_keep_config env req⟩, ?_⟩
  · intro w
    simp only [versionCheck]
    split <;> rfl
  repeat' apply And.intro
  all_goals
    intro w
    simp only [call, withHelper, loggerInfo]
    repeat' split
    all_goals simp [Outcome.world, World.emit, List.filter_append, Event.isConfigEvent]

theorem seedSteps_keep_config (env : Env) (req : Body) :
    ∀ s ∈ seedSteps env req, Step.keeps (fun w => w.trace.filter Event.isConfigEvent) s := by
  unfold seedSteps
  simp only [List.forall_mem_cons, List.forall_mem_singleton, List.not_mem_nil, false_implies,
    implies_true, and_true]
  repeat' apply And.intro
  all_goals
    intro w
    simp only [call, withHelper, loggerInfo, insertGroup, deleteUsers, insertUser, relateUser]
    repeat' split
    all_goals simp [Outcome.world, World.emit, List.filter_append, Event.isConfigEvent]

theorem exec_sections_config (env : Env) (req : Body) (w : World) :
    ∃ n, n ≤ 15 ∧
      (exec (configSteps env req ++ certificateSteps env ++ persistSteps env) w).world.trace.filter
          Event.isConfigEvent =
        w.trace.filter Event.isConfigEvent ++ (configScript env req).take n ∧
      (∀ w1, exec (configSteps env req ++ certificateSteps env ++ persistSteps env) w = .ok w1 →
        n = 15) := by
  cases h1 : env.throws .randomBytes with
  | some m =>
    refine ⟨9, by decide, ?_, ?_⟩
    · simp [configSteps, certificateSteps, persistSteps, exec, call, h1, setConfig,
        drawSessionSecret, World.emit, World.configSet, Outcome.world, List.filter_append,
        List.filter_cons, Event.isConfigEvent, configScript, assignedSections, draftSections]
    · intro w1 h
      simp [configSteps, certificateSteps, persistSteps, exec, call, h1, setConfig,
        drawSessionSecret, World.emit, World.configSet] at h
  | none =>
    cases h2 : env.throws .generateKeyPair with
    | some m =>
      refine ⟨13, by decide, ?_, ?_⟩
      · simp [configSteps, certificateSteps, persistSteps, exec, call, h1, h2, setConfig,
          drawSessionSecret, generateCertificates, loggerInfo, World.emit, World.configSet,
          Outcome.world, List.filter_append, List.filter_cons, Event.isConfigEvent, configScript,
          assignedSections, draftSections]
      · intro w1 h
        simp [configSteps, certificateSteps, persistSteps, exec, call, h1, h2, setConfig,
          drawSessionSecret, generateCertificates, loggerInfo, World.emit, World.configSet] at h
    | none =>
      cases h2b : env.throws .pem2jwk with
      | some m =>
        refine ⟨13, by decide, ?_, ?_⟩
        · simp [configSteps, certificateSteps, persistSteps, exec, call, withHelper, h1, h2, h2b,
            setConfig, drawSessionSecret, generateCertificates, setCerts, loggerInfo, World.emit,
            World.configSet, Outcome.world, List.filter_append, List.filter_cons,
            Event.isConfigEvent, configScript, assignedSections, draftSections]
        · intro w1 h
          simp [configSteps, certificateSteps, persistSteps, exec, call, withHelper, h1, h2, h2b,
            setConfig, drawSessionSecret, generateCertificates, setCerts, loggerInfo, World.emit,
            World.configSet] at h
      | none =>
        refine ⟨15, by decide, ?_, fun _ _ => rfl⟩
        cases h3 : env.throws .saveToDb <;>
          simp [configSteps, certificateSteps, persistSteps, exec, call, withHelper, h1, h2, h2b,
            h3, setConfig, drawSessionSecret, generateCertificates, setCerts, saveConfig,
            loggerInfo, World.emit, World.configSet, Outcome.world, List.filter_append,
            List.filter_cons, Event.isConfigEvent, configScript, assignedSections, draftSections,
            savedSections, persistedSections, Config.get_set_eq, Config.get_set_ne]

theorem tryBlock_phases (env : Env) (req : Body) :
    tryBlock env req =
      ([versionCheck env] ++ upgradeSteps env req ++ directorySteps env) ++
        ((configSteps env req ++ certificateSteps env ++ persistSteps env) ++
          (seedSteps env req ++ handoffSteps)) := by
  simp [tryBlock, bootstrapSteps, assemblySteps, List.append_assoc]

theorem exec_four (xs ys zs us : List Step) (w : World) :
    exec (xs ++ (ys ++ (zs ++ us))) w =
      match exec xs w with
      | .ok w1 =>
        match exec ys w1 with
        | .ok w2 =>
          match exec zs w2 with
          | .ok w3 => exec us w3
          | .threw message w3 => .threw message w3
        | .threw message w2 => .threw message w2
      | .threw message w1 => .threw message w1 := by
  rw [exec_append]
  cases exec xs w with
  | threw m w1 => rfl
  | ok w1 =>
    dsimp only
    rw [exec_append]
    cases exec ys w1 with
    | threw m w2 => rfl
    | ok w2 =>
      dsimp only
      rw [exec_append]

theorem finalize_config_events (env : Env) (req : Body) (w : World) :
    ∃ n, (finalize env req w).trace.filter Event.isConfigEvent =
      w.trace.filter Event.isConfigEvent ++ (configScript env req).take n := by
  have henter : (enterHandler w).trace.filter Event.isConfigEvent =
      w.trace.filter Event.isConfigEvent := by
    simp [enterHandler, World.emit, List.filter_append, Event.isConfigEvent]
  have hcatch : ∀ m (w1 : World), (catchClause m w1).trace.filter Event.isConfigEvent =
      w1.trace.filter Event.isConfigEvent := by
    intro m w1
    simp [catchClause, World.emit, List.filter_append, Event.isConfigEvent]
  have hprelude := exec_keeps (fun w => w.trace.filter Event.isConfigEvent) _
    (preludeSteps_keep_config env req) (enterHandler w)
  simp only [henter] at hprelude
  unfold finalize
  rw [tryBlock_phases, exec_four]
  cases h1 : exec ([versionCheck env] ++ upgradeSteps env req ++ directorySteps env)
      (enterHandler w) with
  | threw m w1 =>
    rw [h1] at hprelude
    refine ⟨0, ?_⟩
    simpa [hcatch, Outcome.world] using hprelude
  | ok w1 =>
    dsimp only
    rw [h1] at hprelude
    simp only [Outcome.world] at hprelude
    obtain ⟨n, _, hn, hok⟩ := exec_sections_config env req w1
    cases h2 : exec (configSteps env req ++ certificateSteps env ++ persistSteps env) w1 with
    | threw m w2 =>
      rw [h2] at hn
      refine ⟨n, ?_⟩
      simpa [hcatch, Outcome.world, hprelude] using hn
    | ok w2 =>
      dsimp only
      rw [h2] at hn
      simp only [Outcome.world, hprelude] at hn
      have hn15 := hok w2 h2
      subst hn15
      have hseed := exec_keeps (fun w => w.trace.filter Event.isConfigEvent) _
        (seedSteps_keep_config env req) w2
      cases h3 : exec (seedSteps env req) w2 with
      | threw m w3 =>
        rw [h3] at hseed
        refine ⟨15, ?_⟩
        simpa [hcatch, Outcome.world, hn] using hseed
      | ok w3 =>
        dsimp only
        rw [h3] at hseed
        simp only [Outcome.world, hn] at hseed
        refine ⟨16, ?_⟩
        simp only [exec_handoff]
        simp [handoffEvents, List.filter_append, List.filter_cons, Event.isConfigEvent, hseed,
          filter_destroys_none, configScript, assignedSections, draftSections]

theorem take_prefix_script (env : Env) (req : Body) (n : Nat) :
    (configScript env req).take n <+: configScript env req :=
  List.take_prefix n _

/-- C8, amended: on every run, whatever throws, the configuration events the
run adds are a beginning of this script: the fourteen sections assigned in
order (`certs` last), then the one `saveToDb`, then the assignment of
`setup`. So `saveToDb` is called at most once and only after every section
has been assigned; it is given fourteen names, each with the value assigned
under it in the run, and these names are the thirteen sections the data model
enumerates and `graphEndpoint`. -/
theorem config_saved_once_after_assembly (env : Env) (req : Body) (w : World) :
    (∃ evs, evs <+: configScript env req ∧
      (finalize env req w).trace.filter Event.isConfigEvent =
        w.trace.filter Event.isConfigEvent ++ evs) ∧
    configScript env req =
      (assignedSections env req).map (fun kv => Event.configSet kv.1 kv.2) ++
        [.saveToDb (persistedSections env req), .configSet "setup" (.bool false)] ∧
    (persistedSections env req).map Prod.fst = savedSections ∧
    (persistedSections env req).Perm (assignedSections env req) ∧
    savedSections.Perm ("graphEndpoint" :: specSnapshotSections) := by
  obtain ⟨n, hn⟩ := finalize_config_events env req w
  refine ⟨⟨_, take_prefix_script env req n, hn⟩, rfl, rfl, ?_, ?_⟩
  · unfold persistedSections assignedSections draftSections
    have h : ∀ (a b : String × JsVal) (l : List (String × JsVal)),
        (a :: (l ++ [b])).Perm (a :: b :: l) := by
      intro a b l
      exact (List.perm_append_singleton b l).cons a
    exact (h _ _ _).symm
  · decide

/-- C8 as stated fails: in the run of the scenario the list given to
`saveToDb` names `graphEndpoint`, which is not among the sections the data
model enumerates, and the run assigns `setup`, which is not among them
either. -/
theorem saved_sections_counterexample :
    Event.saveToDb (persistedSections calmEnv scenarioBody) ∈
      (finalize calmEnv scenarioBody freshWorld).trace ∧
    "graphEndpoint" ∈ (persistedSections calmEnv scenarioBody).map Prod.fst ∧
    "graphEndpoint" ∉ specSnapshotSections ∧
    Event.configSet "setup" (.bool false) ∈ (finalize calmEnv scenarioBody freshWorld).trace ∧
    "setup" ∉ specSnapshotSections ∧
    ¬ (∀ key, key ∈ (persistedSections calmEnv scenarioBody).map Prod.fst ↔
        key ∈ specSnapshotSections) := by
  have hfin := finalize_calm calmEnv scenarioBody freshWorld rfl (fun _ => rfl)
  refine ⟨?_, by decide, by decide, ?_, by decide, ?_⟩
  · rw [hfin]
    simp [persistEvents]
  · rw [hfin]
    simp [handoffEvents]
  · intro h
    exact absurd ((h "graphEndpoint").mp (by decide)) (by decide)

/-! ## Retrying after a failure: the general case -/

theorem exec_preserves (P : World → Prop) (steps : List Step)
    (h : ∀ s ∈ steps, Step.preserves P s) : Step.preserves P (exec steps) := by
  induction steps with
  | nil => intro w hw; exact hw
  | cons s rest ih =>
    intro w hw
    have hs := h s (List.mem_cons_self _ _) w hw
    have hrest := ih (fun t ht => h t (List.mem_cons_of_mem _ ht))
    simp only [exec]
    cases hsw : s w with
    | ok w1 =>
      rw [hsw] at hs
      exact hrest w1 hs
    | threw m w1 =>
      rw [hsw] at hs
      exact hs

theorem upgradeSteps_preserve_accounts (base : List UserRow) (env : Env) (req : Body) :
    ∀ s ∈ upgradeSteps env req, Step.preserves (onlySeedAccountsAdded base req) s := by
  intro s hs
  unfold upgradeSteps at hs
  split at hs
  · rw [List.mem_singleton] at hs
    subst hs
    intro w h
    simp only [withHelper, call]
    repeat' split
    all_goals exact h
  · simp at hs

theorem tryBlock_preserves_accounts (base : List UserRow) (env : Env) (req : Body) :
    ∀ s ∈ tryBlock env req, Step.preserves (onlySeedAccountsAdded base req) s := by
  unfold tryBlock bootstrapSteps assemblySteps directorySteps configSteps certificateSteps
    persistSteps seedSteps handoffSteps
  simp only [List.forall_mem_append, List.forall_mem_cons, List.forall_mem_singleton,
    List.not_mem_nil, false_implies, implies_true, and_true]
  refine ⟨⟨⟨⟨⟨⟨⟨?_, upgradeSteps_preserve_accounts base env req⟩, ?_⟩, ?_⟩, ?_⟩, ?_⟩, ?_⟩, ?_⟩
  · intro w h
    simp only [versionCheck]
    split <;> exact h
  all_goals
    repeat' apply And.intro
    all_goals
      intro w h
      simp only [call, withHelper, loggerInfo, setConfig, drawSessionSecret, generateCertificates,
        setCerts, saveConfig, insertGroup, deleteUsers, insertUser, relateUser, serverDestroy_eq]
      repeat' split
      all_goals
        first
        | exact h
        | (intro row hrow
           exact h row (List.mem_of_mem_filter hrow))
        | (intro row hrow
           rcases List.mem_append.mp hrow with h1 | h1
           · exact h row h1
           · rw [List.mem_singleton] at h1
             subst h1
             first
             | exact Or.inr (Or.inl rfl)
             | exact Or.inr (Or.inr rfl))

theorem finalize_preserves_accounts (env : Env) (req : Body) (w : World) :
    onlySeedAccountsAdded w.db.users req (finalize env req w) := by
  have h0 : onlySeedAccountsAdded w.db.users req (enterHandler w) :=
    fun row hrow => Or.inl hrow
  have h := exec_preserves _ _ (tryBlock_preserves_accounts w.db.users env req) (enterHandler w) h0
  unfold finalize
  cases hrun : exec (tryBlock env req) (enterHandler w) with
  | ok w1 =>
    rw [hrun] at h
    exact h
  | threw m w1 =>
    rw [hrun] at h
    exact h

theorem exec_assembly_calm (env : Env) (req : Body) (w : World)
    (hv : env.versionSatisfies = true)
    (hc : ∀ site, site ∉ lateSites → env.throws site = none) :
    ∃ w1, exec (assemblySteps env req) w = .ok w1 ∧ w1.db = w.db := by
  simp only [assemblySteps, exec_append, exec_version_calm env _ hv,
    exec_upgrade_calm env req _ hc, exec_directory_calm env _ hc, exec_config_calm env req _ hc,
    exec_certificate_calm env _ hc, exec_persist_calm env _ hc]
  exact ⟨_, rfl, rfl⟩

theorem exec_seedStepsThroughGuest_calm (env : Env) (req : Body) (w : World)
    (hc : ∀ site, site ∉ lateSites → env.throws site = none) :
    ∃ w1, exec (seedStepsThroughGuest env req) w = .ok w1 ∧
      w1.db.users = (seededStore env req w.db).users := by
  simp [seedStepsThroughGuest, seedSteps, List.take, exec, call, loggerInfo, insertGroup,
    deleteUsers, insertUser, relateUser, World.emit, Store.insertLocale, Store.insertGroup,
    Store.deleteUsers, Store.insertUser, Store.relate, seededStore,
    hc .insertLocale (by decide), hc .insertAdminGroup (by decide),
    hc .insertGuestGroup (by decide), hc .refreshStrategies (by decide),
    hc .enableLocal (by decide), hc .refreshEditors (by decide), hc .enableMarkdown (by decide),
    hc .refreshLoggers (by decide), hc .refreshRenderers (by decide),
    hc .refreshSearchEngines (by decide), hc .enableDb (by decide),
    hc .refreshTargets (by decide), hc .deleteAdminUser (by decide),
    hc .insertAdminUser (by decide), hc .relateAdminUser (by decide),
    hc .deleteGuestUser (by decide), hc .insertGuestUser (by decide)]

theorem seedStepsAfterGuest_keep_users (env : Env) (req : Body) :
    ∀ s ∈ seedStepsAfterGuest env req, Step.keeps (fun w => w.db.users) s := by
  simp only [seedStepsAfterGuest, seedSteps, List.drop]
  simp only [List.forall_mem_cons, List.not_mem_nil, false_implies, implies_true, and_true]
  repeat' apply And.intro
  all_goals
    intro w
    simp only [call, withHelper, loggerInfo, relateUser]
    repeat' split
    all_goals rfl

theorem tryBlock_around_guest (env : Env) (req : Body) :
    tryBlock env req =
      assemblySteps env req ++
        (seedStepsThroughGuest env req ++ (seedStepsAfterGuest env req ++ handoffSteps)) := by
  simp only [tryBlock, bootstrapSteps, seedStepsThroughGuest, seedStepsAfterGuest,
    ← List.append_assoc, List.take_append_drop]

theorem finalize_users_through_guest (env : Env) (req : Body) (w : World)
    (hv : env.versionSatisfies = true)
    (hc : ∀ site, site ∉ lateSites → env.throws site = none) :
    (finalize env req w).db.users = (seededStore env req w.db).users := by
  obtain ⟨w1, h1, hdb1⟩ := exec_assembly_calm env req (enterHandler w) hv hc
  obtain ⟨w2, h2, hdb2⟩ := exec_seedStepsThroughGuest_calm env req w1 hc
  have hdb : w2.db.users = (seededStore env req w.db).users := by
    rw [hdb2, hdb1]
    rfl
  have hafter := exec_keeps (fun w => w.db.users) _ (seedStepsAfterGuest_keep_users env req) w2
  unfold finalize
  rw [tryBlock_around_guest, exec_four, h1]
  dsimp only
  rw [h2]
  dsimp only
  cases h3 : exec (seedStepsAfterGuest env req) w2 with
  | threw m w3 =>
    rw [h3] at hafter
    dsimp only
    show w3.db.users = _
    rw [← hdb]
    exact hafter
  | ok w3 =>
    rw [h3] at hafter
    dsimp only
    rw [exec_handoff]
    show w3.db.users = _
    rw [← hdb]
    exact hafter

/-- C5, amended: whatever an earlier finalize attempt left in the store, also
one that threw after it had inserted the administrator or the guest, a later
run with the same administrator email in which every statement up to and
including the guest insert returns (what follows may throw) ends with exactly
one account for (`local`, that email) and exactly one for (`local`,
`guest@example.com`). Each delete selects an account exactly when its
provider is `local` and its email is that of the insert after it; and when
the store had no account on either key before the earlier attempt, every
account the deletes select was created by that attempt: it carries the fields
of its administrator insert or of its guest insert. -/
theorem retry_leaves_single_accounts (first second : Env) (req retry : Body) (w : World)
    (hv : second.versionSatisfies = true)
    (hc : ∀ site, site ∉ [Site.relateGuestUser, .deleteNavigation, .uuid, .insertNavigation] →
      second.throws site = none)
    (hmail : retry.adminEmail = req.adminEmail) :
    ((finalize second retry (finalize first req w)).db.accounts "local" req.adminEmail).length = 1 ∧
    ((finalize second retry (finalize first req w)).db.accounts "local"
      "guest@example.com").length = 1 ∧
    (∀ row, (adminFilter retry).selects row = true ↔
      row.fields.provider = "local" ∧ row.fields.email = req.adminEmail) ∧
    (∀ row, guestFilter.selects row = true ↔
      row.fields.provider = "local" ∧ row.fields.email = "guest@example.com") ∧
    (w.db.accounts "local" req.adminEmail = [] → w.db.accounts "local" "guest@example.com" = [] →
      ∀ row ∈ (finalize first req w).db.users,
        (adminFilter retry).selects row = true ∨ guestFilter.selects row = true →
          row.fields = { email := req.adminEmail, provider := "local", password := req.adminPassword, name := "Administrator", locale := "en", defaultEditor := "markdown", tfaIsActive := false, isSystem := none, isActive := true, isVerified := true } ∨
          row.fields = { email := "guest@example.com", provider := "local", password := "", name := "Guest", locale := "en", defaultEditor := "markdown", tfaIsActive := false, isSystem := some true, isActive := true, isVerified := true }) := by
  have husers := finalize_users_through_guest second retry (finalize first req w) hv hc
  have hadmin : ∀ row, (adminFilter retry).selects row = true ↔
      row.fields.provider = "local" ∧ row.fields.email = req.adminEmail := by
    intro row
    rw [selects_iff]
    simp [adminFilter, hmail]
  have hguest : ∀ row, guestFilter.selects row = true ↔
      row.fields.provider = "local" ∧ row.fields.email = "guest@example.com" := by
    intro row
    rw [selects_iff]
    simp [guestFilter]
  refine ⟨?_, ?_, hadmin, hguest, ?_⟩
  · unfold Store.accounts
    rw [husers, ← hmail]
    exact accounts_seededStore_admin second retry _
  · unfold Store.accounts
    rw [husers]
    exact accounts_seededStore_guest second retry _
  · intro h1 h2 row hrow hsel
    rcases finalize_preserves_accounts first req w row hrow with hbase | hnew | hnew
    · exfalso
      rcases hsel with hsel | hsel
      · have hmem : row ∈ w.db.accounts "local" req.adminEmail := by
          unfold Store.accounts
          rw [List.mem_filter]
          exact ⟨hbase, by simpa using (hadmin row).mp hsel⟩
        rw [h1] at hmem
        exact List.not_mem_nil _ hmem
      · have hmem : row ∈ w.db.accounts "local" "guest@example.com" := by
          unfold Store.accounts
          rw [List.mem_filter]
          exact ⟨hbase, by simpa using (hguest row).mp hsel⟩
        rw [h2] at hmem
        exact List.not_mem_nil _ hmem
    · exact Or.inl hnew
    · exact Or.inr hnew

theorem retry_leaves_single_accounts_witness :
    ((finalize (failingAt .relateGuestUser "relation failed") scenarioBody freshWorld).db.users.map
        (fun u => u.fields.email) = ["a@x.com", "guest@example.com"]) ∧
    ((finalize (failingAt .insertNavigation "navigation failed") scenarioBody
        (finalize (failingAt .relateGuestUser "relation failed") scenarioBody
          freshWorld)).db.accounts "local" "a@x.com").length = 1 ∧
    ((finalize (failingAt .insertNavigation "navigation failed") scenarioBody
        (finalize (failingAt .relateGuestUser "relation failed") scenarioBody
          freshWorld)).db.accounts "local" "guest@example.com").length = 1 :=
  have h := retry_leaves_single_accounts (failingAt .relateGuestUser "relation failed")
    (failingAt .insertNavigation "navigation failed") scenarioBody scenarioBody freshWorld rfl
    (fun site hsite => by
      cases site <;> first | rfl | exact absurd (by decide) hsite)
    rfl
  ⟨by decide, h.1, h.2.1⟩

/-- C5 as stated fails for a retry that reaches the account steps and throws
in them: after an attempt that inserted both accounts and then threw, a retry
with the same email whose administrator insert throws has made the delete and
the insert call of the administrator, and ends with no account for (`local`,
`a@x.com`). -/
theorem retry_failing_in_account_steps_counterexample :
    (finalize (failingAt .relateGuestUser "relation failed") scenarioBody freshWorld).db.users.map
        (fun u => u.fields.email) = ["a@x.com", "guest@example.com"] ∧
    ((finalize (failingAt .insertAdminUser "insert failed") scenarioBody
        (finalize (failingAt .relateGuestUser "relation failed") scenarioBody
          freshWorld)).since
        (finalize (failingAt .relateGuestUser "relation failed") scenarioBody
          freshWorld)).filter Event.isAccountCall =
      [ .usersDelete { providerKey := "local", email := "a@x.com" },
        .usersInsert { email := "a@x.com", provider := "local", password := "secret", name := "Administrator", locale := "en", defaultEditor := "markdown", tfaIsActive := false, isSystem := none, isActive := true, isVerified := true } ] ∧
    (finalize (failingAt .insertAdminUser "insert failed") scenarioBody
        (finalize (failingAt .relateGuestUser "relation failed") scenarioBody
          freshWorld)).db.accounts "local" "a@x.com" = [] ∧
    ¬ ((finalize (failingAt .insertAdminUser "insert failed") scenarioBody
        (finalize (failingAt .relateGuestUser "relation failed") scenarioBody
          freshWorld)).db.accounts "local" "a@x.com").length = 1 := by
  refine ⟨by decide, rfl, by decide, by decide⟩

end Setup
